import Mathlib

/-!
Verification development for `react-native-popup-stub` (`src/PopupStub.js`).

The controller keeps a registry of popup records in a JavaScript `Map`
(insertion-ordered, unique keys), modelled here as a `List Popup` keyed by the
`id` field, together with the process-wide static counter `PopupStub._orderId`
and a seed for the external uuid generator.  All JavaScript numbers that the
code does arithmetic on (`zIndex`, `duration`, delays, comparator results) are
modelled as `ℚ`; machine floating point is never exercised by the code's own
arithmetic (halving, subtraction and sign tests on user-supplied magnitudes).

Mutations in the source happen synchronously on the shared `Map` (and on popup
records held by reference); `setState` only schedules a re-render plus a
completion callback.  Accordingly each operation is a pure function from state
to state that additionally reports
  * `events`  : the lifecycle callbacks fired by the operation's `setState`
                completion handlers, each with the registry contents the
                callback observes when it runs;
  * `sched`   : removal timers started via `setTimeout` (id, milliseconds);
  * `commits` : how many `setState` calls the operation issued (a call with
                `forceUpdate = false` issues none on the closing path).

The factory `createPopup` (util/createPopup.js), the keyframe reverser
(util/keyframes.js) and the animated renderer live outside `src/`; they are
modelled from the spec where noted.
-/

namespace PopupStub

/-- Animation specification: a named preset (a JS string), an opaque keyframes
object, or the result of the external keyframe-reversal utility.  Reversal
(`reverseKeyframes`) is uninterpreted, hence modelled by a free constructor. -/
inductive Anim
  | str (name : String)
  | obj (tag : Nat)
  | reversedObj (a : Anim)
deriving DecidableEq

/-- Modelled from the spec: the external keyframe-reversal collaborator
`reverseKeyframes` (util/keyframes.js, not under `src/`), "keyframe-reversal
`(animationSpec) -> animationSpec`".  It is uninterpreted, so it is modelled as
a free (injective) constructor. -/
def reverseKeyframes (a : Anim) : Anim := Anim.reversedObj a

/-- An `onAnimationEnd` handler: either a user-supplied callback (identified by
an opaque tag) or the self-removal closure installed by `_beforeClosing`. -/
inductive Handler
  | user (tag : Nat)
  | closeSelf (id : String)
deriving DecidableEq

/-- Dynamic JavaScript values as far as the popup record fields need them. -/
inductive JSVal
  | num (q : ℚ)
  | bool (b : Bool)
  | str (s : String)
  | fn (tag : Nat)
  | animv (a : Anim)
  | closeFn (id : String)
  | undefined
deriving DecidableEq

/-- A popup record as built by the factory and mutated by the controller.
User callbacks are identified by opaque tags (`Option Nat`, `none` meaning the
field is not a function, so `isFunction` checks fail and defaults apply). -/
structure Popup where
  id : String
  zIndex : ℚ
  _orderId : Nat
  visible : Bool
  _closing : Bool
  animation : Option Anim
  closingAnimation : Option Anim
  direction : String
  duration : ℚ
  delay : ℚ
  maskDuration : ℚ
  _maskDelay : ℚ
  _maskAnimation : Anim
  _maskAnimatable : Bool
  autoClose : Bool
  onAdded : Option Nat
  onClosed : Option Nat
  onAnimationEnd : Option Handler
  onPressBack : Option Nat
deriving DecidableEq

/-- Caller-supplied options for `addPopup`, already merged with the library
defaults (the factory's defaulting itself is external to `src/`). -/
structure POption where
  zIndex : ℚ
  visible : Bool
  animation : Option Anim
  duration : ℚ
  delay : ℚ
  maskDuration : ℚ
  maskDelay : ℚ
  maskAnimation : Anim
  maskAnimatable : Bool
  autoClose : Bool
  onAdded : Option Nat
  onClosed : Option Nat
  onAnimationEnd : Option Nat
  onPressBack : Option Nat
deriving DecidableEq

/-- Modelled from the spec: the external factory `createPopup`
(util/createPopup.js, not under `src/`): "factory `(element, options,
globalProps) -> PopupRecord`", with `id` a fresh uuid, `_orderId` the
controller-assigned sequence number (`addPopup` merges it into the options),
`_closing` initially false ("true once exit animation has begun") and no
closing animation or direction chosen yet. -/
def createPopup (option : POption) (newId : String) (assignedOrderId : Nat) : Popup :=
  { id := newId
    zIndex := option.zIndex
    _orderId := assignedOrderId
    visible := option.visible
    _closing := false
    animation := option.animation
    closingAnimation := none
    direction := ""
    duration := option.duration
    delay := option.delay
    maskDuration := option.maskDuration
    _maskDelay := option.maskDelay
    _maskAnimation := option.maskAnimation
    _maskAnimatable := option.maskAnimatable
    autoClose := option.autoClose
    onAdded := option.onAdded
    onClosed := option.onClosed
    onAnimationEnd := option.onAnimationEnd.map Handler.user
    onPressBack := option.onPressBack }

/-- Controller state: the registry `this.state.popups` (a JS `Map`, i.e. an
insertion-ordered association list keyed by `Popup.id`), the static counter
`PopupStub._orderId`, and a seed for the external uuid generator. -/
structure St where
  popups : List Popup
  orderId : Nat
  uuidSeed : Nat
deriving DecidableEq

/-- Modelled from the spec: `getNewId` / `uuidV1` is an external
globally-unique identifier generator; successive draws from the seed stand for
successive uuids. -/
def uuidOf (n : Nat) : String := "uuid-" ++ toString n

/-- The initial state: empty registry, counter 0. -/
def initSt : St := { popups := [], orderId := 0, uuidSeed := 0 }

/-- `Map.prototype.get`: first (unique) record with the given id. -/
def mapGet (ps : List Popup) (id : String) : Option Popup :=
  ps.find? (fun p => p.id == id)

/-- `Map.prototype.has`. -/
def mapHas (ps : List Popup) (id : String) : Bool :=
  ps.any (fun p => p.id == id)

/-- `Map.prototype.set`: replace in place if the key is present, else append. -/
def mapSet (ps : List Popup) (p : Popup) : List Popup :=
  if ps.any (fun q => q.id == p.id) then
    ps.map (fun q => if q.id == p.id then p else q)
  else
    ps ++ [p]

/-- `Map.prototype.delete`: remove the keyed entry, preserving the order of the
remaining entries. -/
def mapDelete (ps : List Popup) (id : String) : List Popup :=
  ps.filter (fun p => !(p.id == id))

/-- A lifecycle callback firing: the callback's tag and the registry contents
it observes at the moment it runs (`setState` completion handlers run strictly
after the state is committed). -/
structure Event where
  fn : Nat
  popupsAt : List Popup
deriving DecidableEq

/-- One step of `Array.prototype.sort`'s stable insertion: place `x` after
every element `y` of the already-sorted prefix with `cmp y x ≤ 0`. -/
def jsInsert (cmp : α → α → ℚ) (x : α) : List α → List α
  | [] => [x]
  | y :: ys => if cmp y x ≤ 0 then y :: jsInsert cmp x ys else x :: y :: ys

/-- `Array.prototype.sort` with a numeric comparator, modelled as the stable
insertion sort the engine applies to short arrays; for a consistent comparator
this agrees with any stable sort (the ES2019+ requirement). -/
def jsSort (cmp : α → α → ℚ) (l : List α) : List α :=
  l.foldl (fun acc x => jsInsert cmp x acc) []

/-- The comparator of `_sortPopups` (line 161): `a[1].zIndex - b[1].zIndex`. -/
def zIndexCmp (a b : Popup) : ℚ := a.zIndex - b.zIndex

/-- `_sortPopups` (lines 157-167): sort by `zIndex` when more than one entry. -/
def _sortPopups (popups : List Popup) : List Popup :=
  if popups.length > 1 then jsSort zIndexCmp popups else popups

/-- Output of `removePopupImmediately`. -/
structure RemImmOut where
  st : St
  found : Bool
  events : List Event
  commits : Nat
deriving DecidableEq

/-- `removePopupImmediately` (lines 294-313): delete the record regardless of
state, commit, and fire its `onClosed` (when it is a function) strictly after
the commit; report whether a record was found. -/
def removePopupImmediately (s : St) (id : String) : RemImmOut :=
  let popups := s.popups
  if mapHas popups id then
    let onClosed := (mapGet popups id).bind (fun p => p.onClosed)
    let popups2 := mapDelete popups id
    { st := { s with popups := popups2 }
      found := true
      events := match onClosed with
        | some f => [{ fn := f, popupsAt := popups2 }]
        | none => []
      commits := 1 }
  else
    { st := s, found := false, events := [], commits := 0 }

/-- Is the animation field a JS string (`typeof popup.animation === 'string'`)? -/
def isStringAnim : Option Anim → Bool
  | some (Anim.str _) => true
  | _ => false

/-- `_beforeClosing` (lines 225-253): reset `delay`, raise `_closing`, reverse
the mask animation when enabled, and choose the closing mode: a named string
animation plays in reverse with a fallback `setTimeout` of `duration || 100`,
otherwise keyframes are reversed (unless a closing animation already exists)
and the self-removal `onAnimationEnd` handler is installed.  Returns the
updated record and the timers started. -/
def _beforeClosing (popup : Popup) : Popup × List (String × ℚ) :=
  let id := popup.id
  let popup := { popup with delay := 0, _closing := true }
  let popup :=
    if popup._maskAnimatable then
      { popup with
        _maskAnimation := reverseKeyframes popup._maskAnimation
        _maskDelay := popup.duration - popup.maskDuration }
    else popup
  if popup.closingAnimation.isNone && isStringAnim popup.animation then
    ({ popup with direction := "reverse", closingAnimation := popup.animation },
      [(id, if popup.duration == 0 then 100 else popup.duration)])
  else
    ({ popup with
        closingAnimation :=
          match popup.closingAnimation with
          | some c => some c
          | none => popup.animation.map reverseKeyframes
        onAnimationEnd := some (Handler.closeSelf id) },
      [])

/-- Output of `removePopup`. -/
structure RemOut where
  st : St
  events : List Event
  sched : List (String × ℚ)
  commits : Nat
deriving DecidableEq

/-- `removePopup` (lines 263-285): no-op on a falsy id, an absent record or one
already closing; immediate removal when there is no animation or the popup is
not visible; otherwise run `_beforeClosing` on the record held in the `Map`
(mutation through the reference is visible regardless of `forceUpdate`) and
commit only when `forceUpdate` is set. -/
def removePopup (s : St) (id : String) (forceUpdate : Bool) : RemOut :=
  if id == "" then { st := s, events := [], sched := [], commits := 0 }
  else
    match mapGet s.popups id with
    | none => { st := s, events := [], sched := [], commits := 0 }
    | some popup =>
      if popup._closing then { st := s, events := [], sched := [], commits := 0 }
      else if popup.animation.isNone || !popup.visible then
        let r := removePopupImmediately s id
        { st := r.st, events := r.events, sched := [], commits := r.commits }
      else
        let pc := _beforeClosing popup
        { st := { s with popups := mapSet s.popups pc.1 }
          events := []
          sched := pc.2
          commits := if forceUpdate then 1 else 0 }

/-- Output of `addPopup`; `created` records the popup the factory built (after
the collision-delay adjustment), `ret` the returned id. -/
structure AddOut where
  st : St
  ret : Option String
  created : Option Popup
  events : List Event
  sched : List (String × ℚ)
  commits : Nat
deriving DecidableEq

/-- `addPopup` (lines 177-219): construct the record with the next `_orderId`,
close the first non-closing record with the same `zIndex` (delaying the new
popup and its mask by half the evicted popup's duration, and without forcing a
render), insert the new record, re-sort by `zIndex`, commit, and fire `onAdded`
after the commit.  Returns the new popup's id. -/
def addPopup (s : St) (element : Bool) (option : POption) : AddOut :=
  if !element then
    { st := s, ret := none, created := none, events := [], sched := [], commits := 0 }
  else
    let assigned := s.orderId
    let newId := uuidOf s.uuidSeed
    let s1 : St := { s with orderId := s.orderId + 1, uuidSeed := s.uuidSeed + 1 }
    let newPopup := createPopup option newId assigned
    match s1.popups.find? (fun p => p.zIndex == newPopup.zIndex && !p._closing) with
    | some collided =>
      let newPopup :=
        { newPopup with delay := collided.duration / 2, _maskDelay := collided.duration / 2 }
      let r := removePopup s1 collided.id false
      let popups2 := _sortPopups (mapSet r.st.popups newPopup)
      { st := { r.st with popups := popups2 }
        ret := some newId
        created := some newPopup
        events := r.events ++
          (match newPopup.onAdded with
            | some f => [{ fn := f, popupsAt := popups2 }]
            | none => [])
        sched := r.sched
        commits := r.commits + 1 }
    | none =>
      let popups2 := _sortPopups (mapSet s1.popups newPopup)
      { st := { s1 with popups := popups2 }
        ret := some newId
        created := some newPopup
        events :=
          (match newPopup.onAdded with
            | some f => [{ fn := f, popupsAt := popups2 }]
            | none => [])
        sched := []
        commits := 1 }

/-- The enumerated own properties of a popup record (the shape the factory
gives every record).  Modelled from the spec's data model, as the factory is
external to `src/`. -/
inductive PKey
  | kid | kzIndex | korderId | kvisible | kclosing | kanimation | kclosingAnimation
  | kdirection | kduration | kdelay | kmaskDuration | kmaskDelay | kmaskAnimation
  | kmaskAnimatable | kautoClose | konAdded | konClosed | konAnimationEnd | konPressBack
deriving DecidableEq

/-- The JS property name of each own property. -/
def keyName : PKey → String
  | .kid => "id"
  | .kzIndex => "zIndex"
  | .korderId => "_orderId"
  | .kvisible => "visible"
  | .kclosing => "_closing"
  | .kanimation => "animation"
  | .kclosingAnimation => "closingAnimation"
  | .kdirection => "direction"
  | .kduration => "duration"
  | .kdelay => "delay"
  | .kmaskDuration => "maskDuration"
  | .kmaskDelay => "_maskDelay"
  | .kmaskAnimation => "_maskAnimation"
  | .kmaskAnimatable => "_maskAnimatable"
  | .kautoClose => "autoClose"
  | .konAdded => "onAdded"
  | .konClosed => "onClosed"
  | .konAnimationEnd => "onAnimationEnd"
  | .konPressBack => "onPressBack"

/-- The own properties of a record, by their JS property names. -/
def keyTable : List (String × PKey) :=
  [("id", .kid), ("zIndex", .kzIndex), ("_orderId", .korderId), ("visible", .kvisible),
   ("_closing", .kclosing), ("animation", .kanimation),
   ("closingAnimation", .kclosingAnimation), ("direction", .kdirection),
   ("duration", .kduration), ("delay", .kdelay), ("maskDuration", .kmaskDuration),
   ("_maskDelay", .kmaskDelay), ("_maskAnimation", .kmaskAnimation),
   ("_maskAnimatable", .kmaskAnimatable), ("autoClose", .kautoClose),
   ("onAdded", .konAdded), ("onClosed", .konClosed),
   ("onAnimationEnd", .konAnimationEnd), ("onPressBack", .konPressBack)]

/-- Which own property (if any) a JS string key denotes. -/
def keyOf (k : String) : Option PKey :=
  (keyTable.find? (fun e => e.1 == k)).map (fun e => e.2)

/-- `popup.hasOwnProperty(key)` for the factory-built record shape. -/
def hasOwn (k : String) : Bool := (keyOf k).isSome

/-- Read an own property as a dynamic value. -/
def getF (p : Popup) : PKey → JSVal
  | .kid => .str p.id
  | .kzIndex => .num p.zIndex
  | .korderId => .num p._orderId
  | .kvisible => .bool p.visible
  | .kclosing => .bool p._closing
  | .kanimation => match p.animation with | some a => .animv a | none => .undefined
  | .kclosingAnimation => match p.closingAnimation with | some a => .animv a | none => .undefined
  | .kdirection => .str p.direction
  | .kduration => .num p.duration
  | .kdelay => .num p.delay
  | .kmaskDuration => .num p.maskDuration
  | .kmaskDelay => .num p._maskDelay
  | .kmaskAnimation => .animv p._maskAnimation
  | .kmaskAnimatable => .bool p._maskAnimatable
  | .kautoClose => .bool p.autoClose
  | .konAdded => match p.onAdded with | some t => .fn t | none => .undefined
  | .konClosed => match p.onClosed with | some t => .fn t | none => .undefined
  | .konAnimationEnd =>
      match p.onAnimationEnd with
      | some (.user t) => .fn t
      | some (.closeSelf i) => .closeFn i
      | none => .undefined
  | .konPressBack => match p.onPressBack with | some t => .fn t | none => .undefined

/-- `popup[key] = value` for a type-compatible value; on a value whose shape
does not fit the (statically typed) field the record is left unchanged — the
source stores arbitrary values, but no reachable caller writes an ill-typed
one (see `compat`). -/
def setF (p : Popup) (pk : PKey) (v : JSVal) : Popup :=
  match pk with
  | .kid => match v with | .str x => { p with id := x } | _ => p
  | .kzIndex => match v with | .num x => { p with zIndex := x } | _ => p
  | .korderId =>
      match v with
      | .num x => if x.den = 1 then { p with _orderId := x.num.toNat } else p
      | _ => p
  | .kvisible => match v with | .bool x => { p with visible := x } | _ => p
  | .kclosing => match v with | .bool x => { p with _closing := x } | _ => p
  | .kanimation =>
      match v with
      | .animv a => { p with animation := some a }
      | .undefined => { p with animation := none }
      | _ => p
  | .kclosingAnimation =>
      match v with
      | .animv a => { p with closingAnimation := some a }
      | .undefined => { p with closingAnimation := none }
      | _ => p
  | .kdirection => match v with | .str x => { p with direction := x } | _ => p
  | .kduration => match v with | .num x => { p with duration := x } | _ => p
  | .kdelay => match v with | .num x => { p with delay := x } | _ => p
  | .kmaskDuration => match v with | .num x => { p with maskDuration := x } | _ => p
  | .kmaskDelay => match v with | .num x => { p with _maskDelay := x } | _ => p
  | .kmaskAnimation => match v with | .animv a => { p with _maskAnimation := a } | _ => p
  | .kmaskAnimatable => match v with | .bool x => { p with _maskAnimatable := x } | _ => p
  | .kautoClose => match v with | .bool x => { p with autoClose := x } | _ => p
  | .konAdded =>
      match v with
      | .fn t => { p with onAdded := some t }
      | .undefined => { p with onAdded := none }
      | _ => p
  | .konClosed =>
      match v with
      | .fn t => { p with onClosed := some t }
      | .undefined => { p with onClosed := none }
      | _ => p
  | .konAnimationEnd =>
      match v with
      | .fn t => { p with onAnimationEnd := some (.user t) }
      | .closeFn i => { p with onAnimationEnd := some (.closeSelf i) }
      | .undefined => { p with onAnimationEnd := none }
      | _ => p
  | .konPressBack =>
      match v with
      | .fn t => { p with onPressBack := some t }
      | .undefined => { p with onPressBack := none }
      | _ => p

/-- Type compatibility of a written value with the (statically typed) model
field.  Private fields and `id` are unreachable through `resetPopupProperty`,
so they are conservatively incompatible. -/
def compat (pk : PKey) (v : JSVal) : Bool :=
  match pk with
  | .kzIndex => match v with | .num _ => true | _ => false
  | .kvisible => match v with | .bool _ => true | _ => false
  | .kanimation => match v with | .animv _ => true | .undefined => true | _ => false
  | .kclosingAnimation => match v with | .animv _ => true | .undefined => true | _ => false
  | .kdirection => match v with | .str _ => true | _ => false
  | .kduration => match v with | .num _ => true | _ => false
  | .kdelay => match v with | .num _ => true | _ => false
  | .kmaskDuration => match v with | .num _ => true | _ => false
  | .kautoClose => match v with | .bool _ => true | _ => false
  | .konAdded => match v with | .fn _ => true | .undefined => true | _ => false
  | .konClosed => match v with | .fn _ => true | .undefined => true | _ => false
  | .konAnimationEnd =>
      match v with | .fn _ => true | .closeFn _ => true | .undefined => true | _ => false
  | .konPressBack => match v with | .fn _ => true | .undefined => true | _ => false
  | _ => false

/-- `popup[key] = value` by string key (only own properties are ever written,
guarded by `hasOwnProperty`). -/
def setField (p : Popup) (k : String) (v : JSVal) : Popup :=
  match keyOf k with
  | some pk => setF p pk v
  | none => p

/-- Output of `resetPopupProperty`. -/
structure ResetOut where
  st : St
  commits : Nat
deriving DecidableEq

/-- `resetPopupProperty` (lines 323-333): reject a falsy id or key, the key
`id`, and any key starting with `_`; otherwise overwrite the property when the
record exists and owns the key, and commit. -/
def resetPopupProperty (s : St) (id : String) (key : String) (v : JSVal) : ResetOut :=
  if id == "" || key == "" || key == "id" || key.take 1 == "_" then
    { st := s, commits := 0 }
  else
    match mapGet s.popups id with
    | some popup =>
      if hasOwn key then
        { st := { s with popups := mapSet s.popups (setField popup key v) }, commits := 1 }
      else
        { st := s, commits := 0 }
    | none => { st := s, commits := 0 }

/-- Output of `removeAll`. -/
structure RemAllOut where
  st : St
  events : List Event
  commits : Nat
deriving DecidableEq

/-- `removeAll` (lines 341-374): nothing on an empty registry; with a function
filter keep the records for which the filter is false, collecting `onClosed` of
the removed ones in iteration order; without one clear the registry collecting
every `onClosed`; commit once and fire the collected callbacks after the
commit. -/
def removeAll (s : St) (filter : Option (Popup → Bool)) : RemAllOut :=
  let popups := s.popups
  if popups.length = 0 then { st := s, events := [], commits := 0 }
  else
    match filter with
    | some f =>
      let kept := popups.filter (fun o => !f o)
      let funclist := popups.filterMap (fun o => if f o then o.onClosed else none)
      { st := { s with popups := kept }
        events := funclist.map (fun t => { fn := t, popupsAt := kept })
        commits := 1 }
    | none =>
      let funclist := popups.filterMap (fun o => o.onClosed)
      { st := { s with popups := [] }
        events := funclist.map (fun t => { fn := t, popupsAt := [] })
        commits := 1 }

/-- The comparator of `_onBackAndroid` (lines 129-139): closing or invisible
records sort low, the rest by `_orderId`. -/
def backCmp (a b : Popup) : ℚ :=
  if b._closing || !b.visible then 1
  else if a._closing || !a.visible then -1
  else (a._orderId : ℚ) - (b._orderId : ℚ)

/-- Output of `_onBackAndroid`. -/
structure BackOut where
  st : St
  handled : Bool
  events : List Event
  sched : List (String × ℚ)
  commits : Nat
deriving DecidableEq

/-- `_onBackAndroid` (lines 122-155): decline on an empty registry; otherwise
sort a copy so closing/invisible records come first and take the last element;
decline if it is closing or invisible, auto-close it when `autoClose`, else
delegate to its `onPressBack` (the library default returns false).
`pressBack` interprets the opaque user-callback tags. -/
def _onBackAndroid (s : St) (pressBack : Nat → String → Bool) : BackOut :=
  if s.popups.length = 0 then
    { st := s, handled := false, events := [], sched := [], commits := 0 }
  else
    match (jsSort backCmp s.popups).getLast? with
    | none => { st := s, handled := false, events := [], sched := [], commits := 0 }
    | some popup =>
      if popup._closing || !popup.visible then
        { st := s, handled := false, events := [], sched := [], commits := 0 }
      else if popup.autoClose && popup.visible then
        let r := removePopup s popup.id true
        { st := r.st, handled := true, events := r.events, sched := r.sched,
          commits := r.commits }
      else
        { st := s
          handled := match popup.onPressBack with
            | some t => pressBack t popup.id
            | none => false
          events := [], sched := [], commits := 0 }

/-- `isShow` (lines 49-61) on a live instance: some visible record satisfies
the filter. -/
def isShow (s : St) (filter : Popup → Bool) : Bool :=
  s.popups.any (fun popup => popup.visible && filter popup)

/-! ### Basic facts about the `Map` model and the sort -/

/-- The keys of the registry, in iteration order. -/
def idsOf (ps : List Popup) : List String := ps.map (fun p => p.id)

/-- A well-formed JS `Map` state: no two entries share a key. -/
def NodupIds (ps : List Popup) : Prop := (idsOf ps).Nodup

instance (ps : List Popup) : Decidable (NodupIds ps) := by
  unfold NodupIds
  infer_instance

theorem mapHas_true_iff (ps : List Popup) (id : String) :
    mapHas ps id = true ↔ ∃ p ∈ ps, p.id = id := by
  simp [mapHas, List.any_eq_true]

theorem mapGet_eq_none_iff (ps : List Popup) (id : String) :
    mapGet ps id = none ↔ ∀ p ∈ ps, p.id ≠ id := by
  simp [mapGet, List.find?_eq_none]

theorem mapGet_mem {ps : List Popup} {id : String} {p : Popup}
    (h : mapGet ps id = some p) : p ∈ ps ∧ p.id = id := by
  refine ⟨List.mem_of_find?_eq_some h, ?_⟩
  have := List.find?_some h
  simpa using this

theorem mapHas_of_get {ps : List Popup} {id : String} {p : Popup}
    (h : mapGet ps id = some p) : mapHas ps id = true :=
  (mapHas_true_iff ps id).mpr ⟨p, (mapGet_mem h).1, (mapGet_mem h).2⟩

theorem mapGet_of_mem {ps : List Popup} {p : Popup}
    (hnd : NodupIds ps) (hp : p ∈ ps) : mapGet ps p.id = some p := by
  induction ps with
  | nil => cases hp
  | cons q rest ih =>
    have hnd2 : (idsOf rest).Nodup := (List.nodup_cons.mp hnd).2
    have hq : q.id ∉ idsOf rest := (List.nodup_cons.mp hnd).1
    rcases List.mem_cons.mp hp with rfl | hmem
    · simp [mapGet]
    · have hne : q.id ≠ p.id := by
        intro he
        exact hq (he ▸ List.mem_map.mpr ⟨p, hmem, rfl⟩)
      have : (q.id == p.id) = false := beq_eq_false_iff_ne.mpr hne
      simpa [mapGet, List.find?, this] using ih hnd2 hmem

theorem jsInsert_perm (cmp : α → α → ℚ) (x : α) (l : List α) :
    (jsInsert cmp x l).Perm (x :: l) := by
  induction l with
  | nil => simp [jsInsert]
  | cons y ys ih =>
    by_cases h : cmp y x ≤ 0
    · simpa [jsInsert, h] using ((ih.cons y).trans (List.Perm.swap x y ys))
    · simp [jsInsert, h]

theorem jsSortAux_perm (cmp : α → α → ℚ) (l acc : List α) :
    (List.foldl (fun a x => jsInsert cmp x a) acc l).Perm (acc ++ l) := by
  induction l generalizing acc with
  | nil => simp
  | cons x l ih =>
    have h1 := ih (jsInsert cmp x acc)
    have h2 : (jsInsert cmp x acc ++ l).Perm (acc ++ x :: l) := by
      have := (jsInsert_perm cmp x acc).append_right l
      exact this.trans List.perm_middle.symm
    simpa [List.foldl] using h1.trans h2

theorem jsSort_perm (cmp : α → α → ℚ) (l : List α) :
    (jsSort cmp l).Perm l := by
  simpa [jsSort] using jsSortAux_perm cmp l []

theorem sortPopups_perm (ps : List Popup) : (_sortPopups ps).Perm ps := by
  unfold _sortPopups
  by_cases h : ps.length > 1
  · simp [h, jsSort_perm]
  · simp [h]

/-! ### C1: `removePopup` no-op and immediate-removal behaviour -/

/-- C1.  `removePopup(id, forceUpdate)` is a no-op when the id is absent or the
record is already closing; when the record exists, is not closing, and has no
animation or is invisible, the call coincides with `removePopupImmediately`:
the record is deleted within the same call, no timer is started, and every
surviving record is an unchanged original (so no `_closing` flag is ever set).
The id of a registered record is a uuid, hence nonempty. -/
theorem removePopup_noop_or_immediate (s : St) (id : String) (fu : Bool) :
    ((mapGet s.popups id = none ∨ (∃ p, mapGet s.popups id = some p ∧ p._closing = true)) →
      removePopup s id fu = { st := s, events := [], sched := [], commits := 0 })
    ∧ (∀ p, id ≠ "" → mapGet s.popups id = some p → p._closing = false →
        (p.animation = none ∨ p.visible = false) →
        removePopup s id fu =
          { st := (removePopupImmediately s id).st
            events := (removePopupImmediately s id).events
            sched := []
            commits := (removePopupImmediately s id).commits }
        ∧ (removePopup s id fu).st.popups = mapDelete s.popups id
        ∧ ∀ q ∈ (removePopup s id fu).st.popups, q ∈ s.popups) := by
  constructor
  · intro h
    by_cases hid : id = ""
    · subst hid; simp [removePopup]
    · have hid2 : (id == "") = false := beq_eq_false_iff_ne.mpr hid
      rcases h with hnone | ⟨p, hp, hc⟩
      · simp [removePopup, hid2, hnone]
      · simp [removePopup, hid2, hp, hc]
  · intro p hid hp hc hav
    have hid2 : (id == "") = false := beq_eq_false_iff_ne.mpr hid
    have hcond : (p.animation.isNone || !p.visible) = true := by
      rcases hav with h1 | h2
      · simp [h1]
      · simp [h2]
    have hres : removePopup s id fu =
        { st := (removePopupImmediately s id).st
          events := (removePopupImmediately s id).events
          sched := []
          commits := (removePopupImmediately s id).commits } := by
      simp [removePopup, hid2, hp, hc, hcond]
    refine ⟨hres, ?_, ?_⟩
    · rw [hres]
      simp [removePopupImmediately, mapHas_of_get hp]
    · intro q hq
      rw [hres] at hq
      simp [removePopupImmediately, mapHas_of_get hp, mapDelete] at hq
      exact hq.1

/-- A popup with no animation, used to instantiate C1. -/
def wPopupNoAnim : Popup :=
  { id := uuidOf 0, zIndex := 1, _orderId := 0, visible := true, _closing := false
    animation := none, closingAnimation := none, direction := "", duration := 300
    delay := 0, maskDuration := 100, _maskDelay := 0, _maskAnimation := .obj 0
    _maskAnimatable := false, autoClose := true, onAdded := none, onClosed := some 7
    onAnimationEnd := none, onPressBack := some 3 }

/-- A one-popup registry state, used to instantiate C1. -/
def wSt1 : St := { popups := [wPopupNoAnim], orderId := 1, uuidSeed := 1 }

/-- Witness for C1: removing the visible, animation-free popup deletes it from
the registry within the call. -/
theorem removePopup_noop_or_immediate_witness :
    (removePopup wSt1 (uuidOf 0) true).st.popups = mapDelete wSt1.popups (uuidOf 0) :=
  ((removePopup_noop_or_immediate wSt1 (uuidOf 0) true).2 wPopupNoAnim
    (by decide) (by decide) (by decide) (Or.inl rfl)).2.1

/-! ### C4: `removePopupImmediately` -/

theorem mapHas_mapDelete (ps : List Popup) (id : String) :
    mapHas (mapDelete ps id) id = false := by
  rw [Bool.eq_false_iff]
  intro h
  rcases (mapHas_true_iff _ _).mp h with ⟨p, hp, hpid⟩
  rcases List.mem_filter.mp hp with ⟨_, hne⟩
  simp [hpid] at hne

/-- C4.  `removePopupImmediately(id)` returns true iff a record with the id is
present; when present (closing or not) it deletes the record, and fires that
record's `onClosed` exactly once, observing a registry that no longer contains
the id; when absent it returns false and changes nothing. -/
theorem removePopupImmediately_spec (s : St) (id : String) :
    ((removePopupImmediately s id).found = true ↔ mapHas s.popups id = true)
    ∧ (mapHas s.popups id = false →
        removePopupImmediately s id = { st := s, found := false, events := [], commits := 0 })
    ∧ (∀ p, mapGet s.popups id = some p →
        (removePopupImmediately s id).st.popups = mapDelete s.popups id
        ∧ mapHas (removePopupImmediately s id).st.popups id = false
        ∧ (removePopupImmediately s id).events =
            (match p.onClosed with
              | some f => [{ fn := f, popupsAt := mapDelete s.popups id }]
              | none => [])
        ∧ ∀ ev ∈ (removePopupImmediately s id).events,
            ev.popupsAt = (removePopupImmediately s id).st.popups) := by
  refine ⟨?_, ?_, ?_⟩
  · constructor
    · intro h
      by_cases hh : mapHas s.popups id = true
      · exact hh
      · simp [removePopupImmediately, hh] at h
    · intro hh
      simp [removePopupImmediately, hh]
  · intro hh
    simp [removePopupImmediately, hh]
  · intro p hp
    have hh : mapHas s.popups id = true := mapHas_of_get hp
    refine ⟨?_, ?_, ?_, ?_⟩
    · simp [removePopupImmediately, hh]
    · simp [removePopupImmediately, hh, mapHas_mapDelete]
    · simp [removePopupImmediately, hh, hp]
    · intro ev hev
      rcases ho : p.onClosed with _ | f
      · simp [removePopupImmediately, hh, hp, ho] at hev
      · simp [removePopupImmediately, hh, hp, ho] at hev ⊢
        simp [hev]

/-- Witness for C4: removing the present demo popup fires its `onClosed` (tag
7) with the emptied registry. -/
theorem removePopupImmediately_spec_witness :
    (removePopupImmediately wSt1 (uuidOf 0)).events =
      [{ fn := 7, popupsAt := mapDelete wSt1.popups (uuidOf 0) }] := by
  have h := ((removePopupImmediately_spec wSt1 (uuidOf 0)).2.2 wPopupNoAnim
    (by decide)).2.2.1
  simpa using h

/-! ### C6: `removeAll` -/

theorem filterMap_if_eq_filter (ps : List Popup) (f : Popup → Bool) :
    ps.filterMap (fun o => if f o then o.onClosed else none) =
      (ps.filter f).filterMap (fun o => o.onClosed) := by
  induction ps with
  | nil => rfl
  | cons p rest ih =>
    by_cases h : f p
    · simp [List.filterMap_cons, List.filter_cons, h, ih]
    · simp [List.filterMap_cons, List.filter_cons, h, ih]

/-- C6.  `removeAll()` with no filter empties the registry and fires each
previously registered record's `onClosed` exactly once, in registry order, each
observing the already-cleared registry; `removeAll(filter)` keeps exactly the
records for which the filter is false, fires the removed records' `onClosed`
callbacks in collection order, each observing the committed (filtered)
registry, with a single commit in both cases and no `_closing` transition (kept
records are the untouched originals). -/
theorem removeAll_spec (s : St) (f : Popup → Bool) :
    ((removeAll s none).st.popups = []
      ∧ (removeAll s none).events =
          (s.popups.filterMap (fun o => o.onClosed)).map
            (fun t => { fn := t, popupsAt := [] })
      ∧ (removeAll s none).commits ≤ 1)
    ∧ ((removeAll s (some f)).st.popups = s.popups.filter (fun o => !f o)
      ∧ (removeAll s (some f)).events =
          ((s.popups.filter f).filterMap (fun o => o.onClosed)).map
            (fun t => { fn := t, popupsAt := s.popups.filter (fun o => !f o) })
      ∧ (removeAll s (some f)).commits ≤ 1) := by
  constructor
  · by_cases hlen : s.popups.length = 0
    · have hnil : s.popups = [] := List.length_eq_zero.mp hlen
      refine ⟨?_, ?_, ?_⟩ <;> simp [removeAll, hlen, hnil]
    · refine ⟨?_, ?_, ?_⟩ <;> simp [removeAll, hlen]
  · by_cases hlen : s.popups.length = 0
    · have hnil : s.popups = [] := List.length_eq_zero.mp hlen
      refine ⟨?_, ?_, ?_⟩ <;> simp [removeAll, hlen, hnil]
    · refine ⟨?_, ?_, ?_⟩ <;>
        simp [removeAll, hlen, filterMap_if_eq_filter]

/-! ### C5: the static facade with no live instance -/

/-- A JavaScript runtime failure (dereferencing a null `PopupStub.stub`). -/
inductive JSError
  | typeError
deriving DecidableEq

/-- Static `addPopup` (lines 70-74): guarded by `element && PopupStub.stub`. -/
def staticAddPopup (stub : Option St) (element : Bool) (option : POption) :
    Option St × Option String :=
  if element then
    match stub with
    | some s => (some (addPopup s element option).st, (addPopup s element option).ret)
    | none => (stub, none)
  else (stub, none)

/-- Static `removePopup` (lines 76-80): guarded by `id && PopupStub.stub`. -/
def staticRemovePopup (stub : Option St) (id : String) (forceUpdate : Bool) : Option St :=
  if !(id == "") then
    match stub with
    | some s => some (removePopup s id forceUpdate).st
    | none => stub
  else stub

/-- Static `removePopupImmediately` (lines 82-88): guarded by
`id && PopupStub.stub`, returning false otherwise. -/
def staticRemovePopupImmediately (stub : Option St) (id : String) : Option St × Bool :=
  if !(id == "") then
    match stub with
    | some s => (some (removePopupImmediately s id).st, (removePopupImmediately s id).found)
    | none => (stub, false)
  else (stub, false)

/-- Static `resetPopupProperty` (lines 90-94): guarded by `id && PopupStub.stub`. -/
def staticResetPopupProperty (stub : Option St) (id key : String) (v : JSVal) : Option St :=
  if !(id == "") then
    match stub with
    | some s => some (resetPopupProperty s id key v).st
    | none => stub
  else stub

/-- Static `isShow` (lines 49-61): guarded by a presence check, the filter
defaulting to `trueValue`. -/
def staticIsShow (stub : Option St) (filter : Option (Popup → Bool)) : Bool :=
  match stub with
  | some s => isShow s (match filter with | some f => f | none => fun _ => true)
  | none => false

/-- Static `removeAll` (lines 96-98): `PopupStub.stub.removeAll(filter)` with
no presence guard — dereferencing a null stub raises a `TypeError`. -/
def staticRemoveAll (stub : Option St) (filter : Option (Popup → Bool)) :
    Except JSError (Option St) :=
  match stub with
  | some s => Except.ok (some (removeAll s filter).st)
  | none => Except.error JSError.typeError

/-- C5.  With no live registry instance (`PopupStub.stub = null`) the five
guarded static facade operations are total no-ops, but static `removeAll`
(lines 96-98) has no presence guard and fails with a `TypeError` instead of
being a no-op — refuting the claim for `removeAll`. -/
theorem static_facade_null_stub (element : Bool) (option : POption) (id key : String)
    (fu : Bool) (v : JSVal) (f : Option (Popup → Bool)) (fs : Popup → Bool) :
    staticAddPopup none element option = (none, none)
    ∧ staticRemovePopup none id fu = none
    ∧ staticRemovePopupImmediately none id = (none, false)
    ∧ staticResetPopupProperty none id key v = none
    ∧ staticIsShow none (some fs) = false
    ∧ staticIsShow none none = false
    ∧ staticRemoveAll none f = Except.error JSError.typeError := by
  refine ⟨?_, ?_, ?_, ?_, rfl, rfl, rfl⟩
  · cases element <;> rfl
  · by_cases h : (id == "") <;> simp [staticRemovePopup, h]
  · by_cases h : (id == "") <;> simp [staticRemovePopupImmediately, h]
  · by_cases h : (id == "") <;> simp [staticResetPopupProperty, h]

/-! ### C9 and C10: `resetPopupProperty` -/

theorem keyOf_eq_some {k : String} {pk : PKey} (h : keyOf k = some pk) :
    k = keyName pk := by
  unfold keyOf at h
  rcases hf : keyTable.find? (fun e => e.1 == k) with _ | e
  · rw [hf] at h
    cases h
  · rw [hf] at h
    simp only [Option.map_some'] at h
    injection h with h
    have hmem := List.mem_of_find?_eq_some hf
    have hpred := List.find?_some hf
    have hk : e.1 = k := by simpa using hpred
    subst h
    fin_cases hmem <;> simp_all [keyName]

theorem setF_id (p : Popup) (pk : PKey) (v : JSVal) (h : pk ≠ PKey.kid) :
    (setF p pk v).id = p.id := by
  cases pk <;> cases v <;> first
    | exact absurd rfl h
    | rfl
    | (simp only [setF]; split <;> rfl)

theorem setF_zIndex (p : Popup) (pk : PKey) (v : JSVal) (h : pk ≠ PKey.kzIndex) :
    (setF p pk v).zIndex = p.zIndex := by
  cases pk <;> cases v <;> first
    | exact absurd rfl h
    | rfl
    | (simp only [setF]; split <;> rfl)

theorem setF_closing (p : Popup) (pk : PKey) (v : JSVal) (h : pk ≠ PKey.kclosing) :
    (setF p pk v)._closing = p._closing := by
  cases pk <;> cases v <;> first
    | exact absurd rfl h
    | rfl
    | (simp only [setF]; split <;> rfl)

theorem getF_setF_ne (p : Popup) (pk pk2 : PKey) (v : JSVal) (h : pk2 ≠ pk) :
    getF (setF p pk v) pk2 = getF p pk2 := by
  cases pk <;> cases pk2 <;> first
    | exact absurd rfl h
    | (cases v <;> first
        | rfl
        | (simp only [setF]; split <;> rfl))

theorem getF_setF_compat (p : Popup) (pk : PKey) (v : JSVal) (h : compat pk v = true) :
    getF (setF p pk v) pk = v := by
  cases pk <;> cases v <;> first
    | rfl
    | simp [compat] at h

theorem mapGet_append_of_none {ps : List Popup} {id : String}
    (h : mapGet ps id = none) (ps2 : List Popup) :
    mapGet (ps ++ ps2) id = mapGet ps2 id := by
  induction ps with
  | nil => rfl
  | cons x rest ih =>
    by_cases hx : (x.id == id) = true
    · simp [mapGet, List.find?, hx] at h
    · have hx2 : (x.id == id) = false := by simpa using hx
      simp only [mapGet, List.cons_append, List.find?_cons, hx2, cond_false] at h ⊢
      exact ih h

theorem mapGet_mapReplace (ps : List Popup) (q : Popup)
    (h : ps.any (fun x => x.id == q.id) = true) :
    mapGet (ps.map (fun x => if x.id == q.id then q else x)) q.id = some q := by
  induction ps with
  | nil => simp at h
  | cons x rest ih =>
    by_cases hx : (x.id == q.id) = true
    · simp [mapGet, List.find?, hx]
    · have hx2 : (x.id == q.id) = false := by simpa using hx
      have h2 : rest.any (fun x => x.id == q.id) = true := by
        simpa [List.any_cons, hx2] using h
      simpa [mapGet, List.find?, hx2] using ih h2

theorem mapGet_mapSet (ps : List Popup) (q : Popup) :
    mapGet (mapSet ps q) q.id = some q := by
  by_cases h : ps.any (fun x => x.id == q.id) = true
  · simpa [mapSet, h] using mapGet_mapReplace ps q h
  · have hnone : mapGet ps q.id = none := by
      rw [mapGet_eq_none_iff]
      intro p hp he
      exact h (List.any_eq_true.mpr ⟨p, hp, by simp [he]⟩)
    have h2 : ps.any (fun x => x.id == q.id) = false := by simpa using h
    rw [mapSet, h2]
    simp only [Bool.false_eq_true, if_false]
    rw [mapGet_append_of_none hnone]
    simp [mapGet]

theorem idsOf_mapSet (ps : List Popup) (q : Popup) :
    idsOf (mapSet ps q) =
      if ps.any (fun x => x.id == q.id) then idsOf ps else idsOf ps ++ [q.id] := by
  unfold mapSet idsOf
  split
  · rw [List.map_map]
    apply List.map_congr_left
    intro x _
    by_cases hx : (x.id == q.id) = true
    · have he : x.id = q.id := beq_iff_eq.mp hx
      simp [hx, he]
    · have hne : x.id ≠ q.id := by simpa using hx
      have hx2 : (x.id == q.id) = false := by simpa using hx
      simp [hx2, hne]
  · simp

theorem mem_mapSet_self (ps : List Popup) (q : Popup) : q ∈ mapSet ps q := by
  unfold mapSet
  split
  · rename_i h
    rcases List.any_eq_true.mp h with ⟨x, hx, hxid⟩
    exact List.mem_map.mpr ⟨x, hx, by simp [hxid]⟩
  · simp

theorem mem_mapSet_of_ne {ps : List Popup} {q p : Popup}
    (hq : q ∈ ps) (hne : q.id ≠ p.id) : q ∈ mapSet ps p := by
  unfold mapSet
  split
  · exact List.mem_map.mpr ⟨q, hq, by simp [beq_eq_false_iff_ne.mpr hne]⟩
  · exact List.mem_append_left _ hq

theorem mem_of_mem_mapSet {ps : List Popup} {q p : Popup}
    (hq : q ∈ mapSet ps p) (hne : q.id ≠ p.id) : q ∈ ps := by
  unfold mapSet at hq
  split at hq
  · rcases List.mem_map.mp hq with ⟨x, hx, hxe⟩
    by_cases hxid : (x.id == p.id) = true
    · rw [if_pos hxid] at hxe
      exact absurd (by rw [← hxe]) hne
    · have hx2 : (x.id == p.id) = false := by simpa using hxid
      rw [hx2] at hxe
      simp at hxe
      exact hxe ▸ hx
  · rcases List.mem_append.mp hq with h | h
    · exact h
    · simp at h
      exact absurd (by rw [h]) hne

/-- On a present record with an own, guard-passing key, `resetPopupProperty`
overwrites the property in place and commits once. -/
theorem resetPopupProperty_overwrite (s : St) (id key : String) (v : JSVal) (p : Popup)
    (hid : id ≠ "") (hp : mapGet s.popups id = some p) (hkid : key ≠ "id")
    (hund : key.take 1 ≠ "_") (hho : hasOwn key = true) :
    resetPopupProperty s id key v =
      { st := { s with popups := mapSet s.popups (setField p key v) }, commits := 1 } := by
  have c1 : (id == "") = false := beq_eq_false_iff_ne.mpr hid
  have c2 : (key == "id") = false := beq_eq_false_iff_ne.mpr hkid
  have c3 : (key.take 1 == "_") = false := beq_eq_false_iff_ne.mpr hund
  have c4 : (key == "") = false := by
    apply beq_eq_false_iff_ne.mpr
    intro he
    rw [he] at hho
    exact absurd hho (by decide)
  simp [resetPopupProperty, c1, c2, c3, c4, hp, hho]

/-- C9.  `resetPopupProperty` is a no-op with no commit whenever the key is
`id`, starts with the private-field marker `_`, the id is absent, or the key is
not an own property of the record; otherwise (on a registered uuid, hence a
nonempty id) it overwrites the property and commits once; writing a
type-compatible value makes the stored property read back as that value. -/
theorem resetPopupProperty_spec (s : St) (id key : String) (v : JSVal) :
    ((key = "id" ∨ key.take 1 = "_" ∨ mapGet s.popups id = none ∨ hasOwn key = false) →
        resetPopupProperty s id key v = { st := s, commits := 0 })
    ∧ (∀ p, id ≠ "" → mapGet s.popups id = some p → key ≠ "id" → key.take 1 ≠ "_" →
        hasOwn key = true →
        resetPopupProperty s id key v =
          { st := { s with popups := mapSet s.popups (setField p key v) }, commits := 1 }
        ∧ ∀ pk, keyOf key = some pk → compat pk v = true →
            mapGet (resetPopupProperty s id key v).st.popups id = some (setField p key v)
            ∧ getF (setField p key v) pk = v) := by
  constructor
  · intro h
    by_cases hg : (id == "" || key == "" || key == "id" || key.take 1 == "_") = true
    · simp [resetPopupProperty, hg]
    · have hg2 : (id == "" || key == "" || key == "id" || key.take 1 == "_") = false := by
        simpa using hg
      simp only [Bool.or_eq_false_iff] at hg2
      rcases h with hkey | hkey | hnone | hho
      · rw [hkey] at hg2
        simp at hg2
      · rw [hkey] at hg2
        simp at hg2
      · simp [resetPopupProperty, hg, hnone]
      · rcases hmg : mapGet s.popups id with _ | popup
        · simp [resetPopupProperty, hg, hmg]
        · simp [resetPopupProperty, hg, hmg, hho]
  · intro p hid hp hkid hund hho
    have hres := resetPopupProperty_overwrite s id key v p hid hp hkid hund hho
    refine ⟨hres, ?_⟩
    intro pk hpk hcompat
    have hpknid : pk ≠ PKey.kid := by
      intro he
      rw [he] at hpk
      exact hkid (keyOf_eq_some hpk)
    have hsf : setField p key v = setF p pk v := by
      simp [setField, hpk]
    constructor
    · rw [hres]
      have hidp : (setField p key v).id = p.id := by
        rw [hsf]
        exact setF_id p pk v hpknid
      have hpid : p.id = id := (mapGet_mem hp).2
      have := mapGet_mapSet s.popups (setField p key v)
      rw [hidp, hpid] at this
      exact this
    · rw [hsf]
      exact getF_setF_compat p pk v hcompat

/-- Witness for C9: on the demo registry, `resetPopupProperty(id,'zIndex',5)`
stores 5 in the record's `zIndex`. -/
theorem resetPopupProperty_spec_witness :
    getF (setField wPopupNoAnim "zIndex" (JSVal.num 5)) PKey.kzIndex = JSVal.num 5 :=
  (((resetPopupProperty_spec wSt1 (uuidOf 0) "zIndex" (JSVal.num 5)).2 wPopupNoAnim
    (by decide) (by decide) (by decide) (by decide) (by decide)).2
    PKey.kzIndex rfl (by decide)).2

/-- C10.  A successful `resetPopupProperty` only rewrites the named own
property of the addressed record: the registry's key sequence (iteration
order) is unchanged — in particular no re-sort happens, sorting by `zIndex`
being confined to `addPopup` — every other record is kept identical, the
addressed record is replaced in place by the single-field update, every other
own property of it reads back unchanged, and the counters are untouched. -/
theorem resetPopupProperty_frame (s : St) (id key : String) (v : JSVal) (p : Popup)
    (pk : PKey) (hid : id ≠ "") (hp : mapGet s.popups id = some p)
    (hkid : key ≠ "id") (hund : key.take 1 ≠ "_") (hpk : keyOf key = some pk) :
    idsOf (resetPopupProperty s id key v).st.popups = idsOf s.popups
    ∧ (∀ q ∈ s.popups, q.id ≠ id → q ∈ (resetPopupProperty s id key v).st.popups)
    ∧ (∀ q ∈ (resetPopupProperty s id key v).st.popups, q.id ≠ id → q ∈ s.popups)
    ∧ mapGet (resetPopupProperty s id key v).st.popups id = some (setField p key v)
    ∧ (∀ pk2, pk2 ≠ pk → getF (setField p key v) pk2 = getF p pk2)
    ∧ (resetPopupProperty s id key v).st.orderId = s.orderId
    ∧ (resetPopupProperty s id key v).st.uuidSeed = s.uuidSeed := by
  have hho : hasOwn key = true := by simp [hasOwn, hpk]
  have hpknid : pk ≠ PKey.kid := by
    intro he
    rw [he] at hpk
    exact hkid (keyOf_eq_some hpk)
  have hsf : setField p key v = setF p pk v := by
    simp [setField, hpk]
  have hidp : (setField p key v).id = p.id := by
    rw [hsf]
    exact setF_id p pk v hpknid
  have hpid : p.id = id := (mapGet_mem hp).2
  have hpmem : p ∈ s.popups := (mapGet_mem hp).1
  have hres := resetPopupProperty_overwrite s id key v p hid hp hkid hund hho
  have hany : s.popups.any (fun x => x.id == (setField p key v).id) = true :=
    List.any_eq_true.mpr ⟨p, hpmem, by simp [hidp]⟩
  refine ⟨?_, ?_, ?_, ?_, ?_, ?_, ?_⟩
  · rw [hres]
    simp only
    rw [idsOf_mapSet, if_pos hany]
  · intro q hq hqid
    rw [hres]
    exact mem_mapSet_of_ne hq (by rw [hidp, hpid]; exact hqid)
  · intro q hq hqid
    rw [hres] at hq
    exact mem_of_mem_mapSet hq (by rw [hidp, hpid]; exact hqid)
  · rw [hres]
    have := mapGet_mapSet s.popups (setField p key v)
    rw [hidp, hpid] at this
    exact this
  · intro pk2 hne
    rw [hsf]
    exact getF_setF_ne p pk pk2 v hne
  · rw [hres]
  · rw [hres]

/-- Witness for C10: resetting `duration` on the demo popup leaves its
`zIndex` property unchanged. -/
theorem resetPopupProperty_frame_witness :
    getF (setField wPopupNoAnim "duration" (JSVal.num 500)) PKey.kzIndex =
      getF wPopupNoAnim PKey.kzIndex :=
  ((resetPopupProperty_frame wSt1 (uuidOf 0) "duration" (JSVal.num 500) wPopupNoAnim
    PKey.kduration (by decide) (by decide) (by decide) (by decide) rfl).2.2.2.2.1
    PKey.kzIndex (by decide))

/-! ### C2: the `addPopup` zIndex-collision path -/

theorem NodupIds_mapSet {ps : List Popup} (q : Popup) (h : NodupIds ps) :
    NodupIds (mapSet ps q) := by
  unfold NodupIds
  rw [idsOf_mapSet]
  split
  · exact h
  · rename_i hany
    have hnot : q.id ∉ idsOf ps := by
      intro hm
      rcases List.mem_map.mp hm with ⟨x, hx, hxe⟩
      exact hany (List.any_eq_true.mpr ⟨x, hx, by simp [hxe]⟩)
    simp only [List.nodup_append, List.nodup_cons, List.not_mem_nil, not_false_iff,
      List.nodup_nil, and_true, true_and]
    exact ⟨h, by simpa [List.disjoint_singleton] using hnot⟩

theorem NodupIds_perm {l1 l2 : List Popup} (hp : l1.Perm l2) (h : NodupIds l1) :
    NodupIds l2 := by
  unfold NodupIds idsOf at h ⊢
  exact ((hp.map (fun p => p.id)).nodup_iff).mp h

theorem mem_sortPopups {q : Popup} {ps : List Popup} (h : q ∈ ps) :
    q ∈ _sortPopups ps :=
  (sortPopups_perm ps).mem_iff.mpr h

theorem beforeClosing_id (p : Popup) : (_beforeClosing p).1.id = p.id := by
  simp only [_beforeClosing]
  split_ifs <;> rfl

theorem beforeClosing_closing (p : Popup) : (_beforeClosing p).1._closing = true := by
  simp only [_beforeClosing]
  split_ifs <;> rfl

theorem beforeClosing_delay (p : Popup) : (_beforeClosing p).1.delay = 0 := by
  simp only [_beforeClosing]
  split_ifs <;> rfl

theorem beforeClosing_maskDelay (p : Popup) :
    (_beforeClosing p).1._maskDelay =
      (if p._maskAnimatable then p.duration - p.maskDuration else p._maskDelay) := by
  simp only [_beforeClosing]
  split_ifs <;> rfl

/-- The record the collision path builds for the incoming popup: the factory
output with `delay` and `_maskDelay` overwritten (line 194). -/
def npOf (s : St) (option : POption) (collided : Popup) : Popup :=
  { createPopup option (uuidOf s.uuidSeed) s.orderId with
    delay := collided.duration / 2, _maskDelay := collided.duration / 2 }

/-- The registry produced by the collision path when the evicted popup goes
through the closing transition. -/
def evictPopups (s : St) (option : POption) (collided : Popup) : List Popup :=
  _sortPopups (mapSet (mapSet s.popups (_beforeClosing collided).1) (npOf s option collided))

/-- C2.  When `addPopup` collides on `zIndex` with a non-closing record (here
one that is visible and animated, so the eviction goes through the closing
transition), the incoming popup's `delay` and `_maskDelay` are both half the
evicted popup's `duration`, the evicted record is left closing with its own
`delay` reset to zero (its `_maskDelay` set only by the closing transition's
mask rule), the call returns the new popup's id, and only one render commit is
issued — the eviction itself does not force one (`forceUpdate=false`). -/
theorem addPopup_zIndex_collision (s : St) (option : POption) (collided : Popup)
    (hnd : NodupIds s.popups)
    (hfound : s.popups.find? (fun p => p.zIndex == option.zIndex && !p._closing) =
      some collided)
    (hanim : collided.animation ≠ none)
    (hvis : collided.visible = true)
    (hcid : collided.id ≠ "")
    (hfresh : ∀ q ∈ s.popups, q.id ≠ uuidOf s.uuidSeed) :
    (addPopup s true option).ret = some (uuidOf s.uuidSeed)
    ∧ (∃ np, mapGet (addPopup s true option).st.popups (uuidOf s.uuidSeed) = some np
        ∧ np.delay = collided.duration / 2
        ∧ np._maskDelay = collided.duration / 2
        ∧ np._closing = false
        ∧ np._orderId = s.orderId)
    ∧ (∃ p2, mapGet (addPopup s true option).st.popups collided.id = some p2
        ∧ p2._closing = true
        ∧ p2.delay = 0
        ∧ p2._maskDelay = (if collided._maskAnimatable then
            collided.duration - collided.maskDuration else collided._maskDelay))
    ∧ (addPopup s true option).commits = 1 := by
  have hc_mem : collided ∈ s.popups := List.mem_of_find?_eq_some hfound
  have hpred := List.find?_some hfound
  have hboth : collided.zIndex = option.zIndex ∧ collided._closing = false := by
    simpa using hpred
  have hnc : collided._closing = false := hboth.2
  have hget : mapGet s.popups collided.id = some collided := mapGet_of_mem hnd hc_mem
  have hanim2 : collided.animation.isNone = false := by
    rcases ha : collided.animation with _ | a
    · exact absurd ha hanim
    · rfl
  have hcid2 : (collided.id == "") = false := beq_eq_false_iff_ne.mpr hcid
  have hcond : (collided.animation.isNone || !collided.visible) = false := by
    simp [hanim2, hvis]
  -- the state after the counter/uuid bump; its registry is s.popups
  have hstep : ∀ s1 : St, s1.popups = s.popups →
      removePopup s1 collided.id false =
        { st := { s1 with popups := mapSet s.popups (_beforeClosing collided).1 }
          events := []
          sched := (_beforeClosing collided).2
          commits := 0 } := by
    intro s1 hs1
    simp [removePopup, hs1, hcid2, hget, hnc, hcond]
  have hfound2 :
      (List.find? (fun p =>
          p.zIndex == (createPopup option (uuidOf s.uuidSeed) s.orderId).zIndex
            && !p._closing) s.popups) = some collided := hfound
  have hproj : (addPopup s true option).st.popups = evictPopups s option collided
      ∧ (addPopup s true option).ret = some (uuidOf s.uuidSeed)
      ∧ (addPopup s true option).commits = 1 := by
    simp only [addPopup]
    simp only [hfound2]
    rw [hstep { s with orderId := s.orderId + 1, uuidSeed := s.uuidSeed + 1 } rfl]
    exact ⟨rfl, rfl, rfl⟩
  have hnpid : (npOf s option collided).id = uuidOf s.uuidSeed := rfl
  have hpcid : (_beforeClosing collided).1.id = collided.id := beforeClosing_id collided
  have hnd2 : NodupIds (evictPopups s option collided) :=
    NodupIds_perm (sortPopups_perm _).symm
      (NodupIds_mapSet _ (NodupIds_mapSet _ hnd))
  have hnp_mem : npOf s option collided ∈ evictPopups s option collided :=
    mem_sortPopups (mem_mapSet_self _ _)
  have hpc_mem : (_beforeClosing collided).1 ∈ evictPopups s option collided := by
    apply mem_sortPopups
    apply mem_mapSet_of_ne (mem_mapSet_self s.popups _)
    rw [hpcid, hnpid]
    exact hfresh collided hc_mem
  have hget_np : mapGet (evictPopups s option collided) (uuidOf s.uuidSeed) =
      some (npOf s option collided) := by
    have := mapGet_of_mem hnd2 hnp_mem
    rwa [hnpid] at this
  have hget_pc : mapGet (evictPopups s option collided) collided.id =
      some (_beforeClosing collided).1 := by
    have := mapGet_of_mem hnd2 hpc_mem
    rwa [hpcid] at this
  refine ⟨hproj.2.1, ⟨npOf s option collided, ?_, rfl, rfl, rfl, rfl⟩,
    ⟨(_beforeClosing collided).1, ?_, beforeClosing_closing collided,
      beforeClosing_delay collided, beforeClosing_maskDelay collided⟩, hproj.2.2⟩
  · rw [hproj.1]
    exact hget_np
  · rw [hproj.1]
    exact hget_pc

/-- A visible popup with a string animation, used to instantiate C2 and C3. -/
def wAnimPopup : Popup :=
  { id := uuidOf 0, zIndex := 1, _orderId := 0, visible := true, _closing := false
    animation := some (.str "fade"), closingAnimation := none, direction := ""
    duration := 300, delay := 0, maskDuration := 100, _maskDelay := 0
    _maskAnimation := .obj 0, _maskAnimatable := false, autoClose := true
    onAdded := none, onClosed := some 7, onAnimationEnd := none, onPressBack := some 3 }

/-- A registry holding only `wAnimPopup`. -/
def wStAnim : St := { popups := [wAnimPopup], orderId := 1, uuidSeed := 1 }

/-- Options colliding with `wAnimPopup` on `zIndex`. -/
def wOption : POption :=
  { zIndex := 1, visible := true, animation := none, duration := 200, delay := 0
    maskDuration := 50, maskDelay := 0, maskAnimation := .obj 1, maskAnimatable := false
    autoClose := false, onAdded := none, onClosed := none, onAnimationEnd := none
    onPressBack := none }

/-- Witness for C2: the incoming popup is delayed by half the evicted popup's
duration (150 of 300). -/
theorem addPopup_zIndex_collision_witness :
    ∃ np, mapGet (addPopup wStAnim true wOption).st.popups (uuidOf 1) = some np
      ∧ np.delay = wAnimPopup.duration / 2
      ∧ np._maskDelay = wAnimPopup.duration / 2
      ∧ np._closing = false
      ∧ np._orderId = 1 :=
  (addPopup_zIndex_collision wStAnim wOption wAnimPopup
    (by decide) (by decide) (by decide) (by decide) (by decide) (by decide)).2.1

/-! ### C3: the back-button handler -/

theorem jsInsert_top (cmp : α → α → ℚ) (e : α) (acc : List α)
    (h : ∀ y ∈ acc, cmp y e ≤ 0) : jsInsert cmp e acc = acc ++ [e] := by
  induction acc with
  | nil => rfl
  | cons y ys ih =>
    have hy : cmp y e ≤ 0 := h y (List.mem_cons_self y ys)
    simp only [jsInsert, if_pos hy, List.cons_append]
    rw [ih (fun z hz => h z (List.mem_cons_of_mem y hz))]

theorem jsInsert_last (cmp : α → α → ℚ) (x e : α) (acc : List α) (hx : 0 < cmp e x) :
    ∃ acc2, jsInsert cmp x (acc ++ [e]) = acc2 ++ [e] := by
  induction acc with
  | nil =>
    refine ⟨[x], ?_⟩
    have hnle : ¬ cmp e x ≤ 0 := not_le.mpr hx
    simp [jsInsert, hnle]
  | cons y ys ih =>
    by_cases hy : cmp y x ≤ 0
    · rcases ih with ⟨acc2, hacc⟩
      exact ⟨y :: acc2, by simp [jsInsert, hy, hacc]⟩
    · exact ⟨x :: y :: ys, by simp [jsInsert, hy]⟩

theorem foldl_insert_keeps_last (cmp : α → α → ℚ) (e : α) :
    ∀ (l acc0 : List α), (∀ x ∈ l, 0 < cmp e x) →
      ∃ acc2, List.foldl (fun a x => jsInsert cmp x a) (acc0 ++ [e]) l = acc2 ++ [e] := by
  intro l
  induction l with
  | nil => exact fun acc0 _ => ⟨acc0, rfl⟩
  | cons x xs ih =>
    intro acc0 hl
    rcases jsInsert_last cmp x e acc0 (hl x (List.mem_cons_self x xs)) with ⟨acc1, h1⟩
    rcases ih acc1 (fun z hz => hl z (List.mem_cons_of_mem x hz)) with ⟨acc2, h2⟩
    refine ⟨acc2, ?_⟩
    simpa [List.foldl, h1] using h2

/-- Under the handler's comparator shape, an element dominating its left part
(never required to move past it) and strictly dominating its right part ends
up last in the sort. -/
theorem jsSort_getLast (cmp : α → α → ℚ) (l1 l2 : List α) (e : α)
    (h1 : ∀ y ∈ l1, cmp y e ≤ 0)
    (h2 : ∀ x ∈ l2, 0 < cmp e x) :
    (jsSort cmp (l1 ++ e :: l2)).getLast? = some e := by
  unfold jsSort
  rw [List.foldl_append, List.foldl_cons]
  have hperm : (List.foldl (fun a x => jsInsert cmp x a) [] l1).Perm l1 := by
    simpa using jsSortAux_perm cmp l1 []
  rw [jsInsert_top cmp e _ (fun y hy => h1 y (hperm.mem_iff.mp hy))]
  rcases foldl_insert_keeps_last cmp e l2 _ h2 with ⟨acc2, hacc⟩
  rw [hacc]
  exact List.getLast?_concat _

/-- C3.  The back handler declines on an empty registry; with at least one
eligible (visible, non-closing) record it selects the eligible record with the
strictly largest `_orderId`, auto-closing it via `removePopup` and reporting
handled when `autoClose` is set, else reporting the record's `onPressBack`
result (false when the callback is the library default); with no eligible
record it declines and leaves the registry unchanged. -/
theorem onBackAndroid_spec (s : St) (pressBack : Nat → String → Bool) :
    (s.popups = [] → _onBackAndroid s pressBack =
      { st := s, handled := false, events := [], sched := [], commits := 0 })
    ∧ (∀ e ∈ s.popups, NodupIds s.popups → e.visible = true → e._closing = false →
        (∀ x ∈ s.popups, x.id ≠ e.id → x._closing = false → x.visible = true →
            x._orderId < e._orderId) →
        (jsSort backCmp s.popups).getLast? = some e
        ∧ (e.autoClose = true → _onBackAndroid s pressBack =
            { st := (removePopup s e.id true).st
              handled := true
              events := (removePopup s e.id true).events
              sched := (removePopup s e.id true).sched
              commits := (removePopup s e.id true).commits })
        ∧ (e.autoClose = false → _onBackAndroid s pressBack =
            { st := s
              handled := (match e.onPressBack with
                          | some t => pressBack t e.id
                          | none => false)
              events := [], sched := [], commits := 0 }))
    ∧ ((∀ x ∈ s.popups, x._closing = true ∨ x.visible = false) →
        (_onBackAndroid s pressBack).handled = false
        ∧ (_onBackAndroid s pressBack).st = s) := by
  refine ⟨?_, ?_, ?_⟩
  · intro h
    simp [_onBackAndroid, h]
  · intro e hmem hnd hvis hncl hmax
    have he_cond : (e._closing || !e.visible) = false := by simp [hncl, hvis]
    rcases List.append_of_mem hmem with ⟨l1, l2, hsplit⟩
    have hne_id : ∀ x, x ∈ l1 ∨ x ∈ l2 → x.id ≠ e.id := by
      have hnd2 : (e.id :: (idsOf l1 ++ idsOf l2)).Nodup := by
        have h0 := hnd
        rw [hsplit] at h0
        unfold NodupIds idsOf at h0
        simp only [List.map_append, List.map_cons] at h0
        unfold idsOf
        exact List.nodup_middle.mp h0
      have hnotin := (List.nodup_cons.mp hnd2).1
      intro x hx he
      apply hnotin
      rcases hx with h | h
      · exact List.mem_append_left _ (he ▸ List.mem_map.mpr ⟨x, h, rfl⟩)
      · exact List.mem_append_right _ (he ▸ List.mem_map.mpr ⟨x, h, rfl⟩)
    have hlast : (jsSort backCmp s.popups).getLast? = some e := by
      rw [hsplit]
      apply jsSort_getLast
      · intro y hy
        have hymem : y ∈ s.popups := by
          rw [hsplit]
          exact List.mem_append_left _ hy
        unfold backCmp
        rw [he_cond]
        by_cases hy2 : (y._closing || !y.visible) = true
        · simp [hy2]
        · have hy3 : (y._closing || !y.visible) = false := by simpa using hy2
          simp only [hy3]
          have hyc : y._closing = false := by
            rcases Bool.or_eq_false_iff.mp hy3 with ⟨h1, _⟩
            exact h1
          have hyv : y.visible = true := by
            rcases Bool.or_eq_false_iff.mp hy3 with ⟨_, h2⟩
            simpa using h2
          have hlt : y._orderId < e._orderId :=
            hmax y hymem (hne_id y (Or.inl hy)) hyc hyv
          simp only [Bool.false_eq_true, if_false]
          have : (y._orderId : ℚ) ≤ (e._orderId : ℚ) := by
            exact_mod_cast le_of_lt hlt
          linarith
      · intro x hx
        have hxmem : x ∈ s.popups := by
          rw [hsplit]
          exact List.mem_append_right _ (List.mem_cons_of_mem e hx)
        unfold backCmp
        by_cases hx2 : (x._closing || !x.visible) = true
        · simp [hx2]
        · have hx3 : (x._closing || !x.visible) = false := by simpa using hx2
          have hxc : x._closing = false := (Bool.or_eq_false_iff.mp hx3).1
          have hxv : x.visible = true := by
            have := (Bool.or_eq_false_iff.mp hx3).2
            simpa using this
          have hlt : x._orderId < e._orderId :=
            hmax x hxmem (hne_id x (Or.inr hx)) hxc hxv
          simp only [hx3, he_cond, Bool.false_eq_true, if_false]
          have : (x._orderId : ℚ) < (e._orderId : ℚ) := by exact_mod_cast hlt
          linarith
    have hlen : ¬ s.popups.length = 0 := by
      rw [hsplit]
      simp
    refine ⟨hlast, ?_, ?_⟩
    · intro hauto
      simp [_onBackAndroid, hlen, hlast, he_cond, hauto, hvis, hncl]
    · intro hauto
      simp [_onBackAndroid, hlen, hlast, he_cond, hauto, hvis, hncl]
  · intro hall
    by_cases hlen : s.popups.length = 0
    · constructor <;> simp [_onBackAndroid, hlen]
    · rcases hg : (jsSort backCmp s.popups).getLast? with _ | y
      · constructor <;> simp [_onBackAndroid, hlen, hg]
      · have hy_sorted : y ∈ jsSort backCmp s.popups := by
          rcases hsort : jsSort backCmp s.popups with _ | ⟨a, l⟩
          · rw [hsort] at hg
            cases hg
          · rw [hsort] at hg
            have := List.getLast?_eq_getLast (a :: l) (by simp)
            rw [this] at hg
            injection hg with hg
            exact hg ▸ List.getLast_mem (by simp)
        have hy_mem : y ∈ s.popups := (jsSort_perm backCmp s.popups).subset hy_sorted
        have hy_cond : (y._closing || !y.visible) = true := by
          rcases hall y hy_mem with h | h
          · simp [h]
          · simp [h]
        constructor <;> simp [_onBackAndroid, hlen, hg, hy_cond]

/-- Three visible, non-closing popups with orderIds 0, 1, 2. -/
def wSt3 : St :=
  { popups :=
      [{ wAnimPopup with id := uuidOf 0, zIndex := 1, _orderId := 0 },
       { wAnimPopup with id := uuidOf 1, zIndex := 2, _orderId := 1 },
       { wAnimPopup with id := uuidOf 2, zIndex := 3, _orderId := 2 }]
    orderId := 3, uuidSeed := 3 }

/-- Witness for C3: with three eligible popups of orderIds 0,1,2 the handler's
sort selects the most recent one (orderId 2). -/
theorem onBackAndroid_spec_witness :
    (jsSort backCmp wSt3.popups).getLast? =
      some { wAnimPopup with id := uuidOf 2, zIndex := 3, _orderId := 2 } :=
  (((onBackAndroid_spec wSt3 (fun _ _ => false)).2.1
    { wAnimPopup with id := uuidOf 2, zIndex := 3, _orderId := 2 }
    (by decide) (by decide) (by decide) (by decide) (by decide))).1

/-! ### C8: `_orderId` assignment is strictly increasing -/

theorem removePopupImmediately_orderId (s : St) (id : String) :
    (removePopupImmediately s id).st.orderId = s.orderId := by
  simp only [removePopupImmediately]
  split <;> rfl

theorem removePopup_orderId (s : St) (id : String) (fu : Bool) :
    (removePopup s id fu).st.orderId = s.orderId := by
  unfold removePopup
  split
  · rfl
  · split
    · rfl
    · split
      · rfl
      · split
        · simpa using removePopupImmediately_orderId s id
        · rfl

/-- The counter bump and the orderId of the record the factory built, per
`addPopup` call. -/
theorem addPopup_created (s : St) (e : Bool) (o : POption) :
    ((addPopup s e o).st.orderId = if e then s.orderId + 1 else s.orderId)
    ∧ (∀ p, (addPopup s e o).created = some p → p._orderId = s.orderId)
    ∧ ((addPopup s e o).created.isSome = e) := by
  cases e
  · simp [addPopup]
  · rcases hf : List.find? (fun p =>
        p.zIndex == (createPopup o (uuidOf s.uuidSeed) s.orderId).zIndex
          && !p._closing) s.popups with _ | c
    · simp only [addPopup]
      simp only [hf]
      refine ⟨rfl, ?_, rfl⟩
      intro p hp
      have hp2 : some (createPopup o (uuidOf s.uuidSeed) s.orderId) = some p := hp
      injection hp2 with hp3
      rw [← hp3]
      rfl
    · simp only [addPopup]
      simp only [hf]
      refine ⟨?_, ?_, rfl⟩
      · have h1 : (removePopup { s with orderId := s.orderId + 1, uuidSeed := s.uuidSeed + 1 }
            c.id false).st.orderId = s.orderId + 1 := removePopup_orderId _ c.id false
        exact h1
      · intro p hp
        have hp2 : some { createPopup o (uuidOf s.uuidSeed) s.orderId with
            delay := c.duration / 2, _maskDelay := c.duration / 2 } = some p := hp
        injection hp2 with hp3
        rw [← hp3]
        rfl

/-- The `_orderId`s handed out by a sequence of `addPopup` calls (one entry
per successful add, in call order). -/
def assignedSeq (s : St) : List (Bool × POption) → List Nat
  | [] => []
  | (e, o) :: rest =>
    (match (addPopup s e o).created with
      | some p => [p._orderId]
      | none => []) ++ assignedSeq (addPopup s e o).st rest

theorem assignedSeq_lb (s : St) (calls : List (Bool × POption)) :
    ∀ x ∈ assignedSeq s calls, s.orderId ≤ x := by
  induction calls generalizing s with
  | nil => simp [assignedSeq]
  | cons c rest ih =>
    rcases c with ⟨e, o⟩
    intro x hx
    simp only [assignedSeq] at hx
    rcases List.mem_append.mp hx with h | h
    · rcases hc : (addPopup s e o).created with _ | p
      · rw [hc] at h
        simp at h
      · rw [hc] at h
        simp at h
        rw [h, (addPopup_created s e o).2.1 p hc]
    · have hle := ih (addPopup s e o).st x h
      have hmono : s.orderId ≤ (addPopup s e o).st.orderId := by
        rw [(addPopup_created s e o).1]
        split <;> omega
      omega

/-- C8.  Across any sequence of `addPopup` calls the assigned `_orderId`s are
strictly increasing in call order (hence never reused): each successful add
hands out the current static counter and bumps it, failed adds leave it
alone. -/
theorem addPopup_orderId_strict_mono (s : St) (calls : List (Bool × POption)) :
    List.Pairwise (· < ·) (assignedSeq s calls) := by
  induction calls generalizing s with
  | nil => simp [assignedSeq]
  | cons c rest ih =>
    rcases c with ⟨e, o⟩
    simp only [assignedSeq]
    rcases hc : (addPopup s e o).created with _ | p
    · simpa using ih (addPopup s e o).st
    · simp only [List.singleton_append, List.pairwise_cons]
      constructor
      · intro x hx
        have hle := assignedSeq_lb (addPopup s e o).st rest x hx
        have he : e = true := by
          have h2 := (addPopup_created s e o).2.2
          rw [hc] at h2
          simpa using h2.symm
        have h1 : (addPopup s e o).st.orderId = s.orderId + 1 := by
          rw [(addPopup_created s e o).1, he]
          simp
        have h2 : p._orderId = s.orderId := (addPopup_created s e o).2.1 p hc
        omega
      · exact ih _

/-! ### C7: at most one non-closing popup per zIndex -/

/-- A non-closing record at stacking position `z`. -/
def predZ (z : ℚ) (p : Popup) : Bool := !p._closing && (p.zIndex == z)

/-- The claimed invariant: at most one non-closing record per `zIndex`. -/
def ZUnique (ps : List Popup) : Prop :=
  ∀ z : ℚ, (ps.filter (predZ z)).length ≤ 1

/-- Registered ids are uuids, hence nonempty. -/
def NonemptyIds (ps : List Popup) : Prop := ∀ p ∈ ps, p.id ≠ ""

/-- The well-formedness bundle the reachability induction maintains. -/
def GoodMap (ps : List Popup) : Prop := NodupIds ps ∧ NonemptyIds ps ∧ ZUnique ps

/-- Every state reachable through the controller's five mutating operations. -/
inductive Reach : St → Prop
  | init : Reach initSt
  | add (s : St) (e : Bool) (o : POption) : Reach s → Reach (addPopup s e o).st
  | remove (s : St) (id : String) (fu : Bool) : Reach s → Reach (removePopup s id fu).st
  | removeImm (s : St) (id : String) : Reach s → Reach (removePopupImmediately s id).st
  | reset (s : St) (id key : String) (v : JSVal) :
      Reach s → Reach (resetPopupProperty s id key v).st
  | removeAllStep (s : St) (f : Option (Popup → Bool)) :
      Reach s → Reach (removeAll s f).st

/-- Reachability when `resetPopupProperty` is never invoked with key
`zIndex` (the amendment the counterexample forces). -/
inductive ReachNZ : St → Prop
  | init : ReachNZ initSt
  | add (s : St) (e : Bool) (o : POption) : ReachNZ s → ReachNZ (addPopup s e o).st
  | remove (s : St) (id : String) (fu : Bool) : ReachNZ s → ReachNZ (removePopup s id fu).st
  | removeImm (s : St) (id : String) : ReachNZ s → ReachNZ (removePopupImmediately s id).st
  | reset (s : St) (id key : String) (v : JSVal) :
      key ≠ "zIndex" → ReachNZ s → ReachNZ (resetPopupProperty s id key v).st
  | removeAllStep (s : St) (f : Option (Popup → Bool)) :
      ReachNZ s → ReachNZ (removeAll s f).st

theorem NodupIds_cons {x : Popup} {xs : List Popup} (h : NodupIds (x :: xs)) :
    x.id ∉ idsOf xs ∧ NodupIds xs := by
  unfold NodupIds idsOf at h
  simp only [List.map_cons] at h
  have h2 := List.nodup_cons.mp h
  exact ⟨h2.1, h2.2⟩

theorem eq_of_mem_same_id :
    ∀ {ps : List Popup} {a b : Popup}, NodupIds ps → a ∈ ps → b ∈ ps →
      a.id = b.id → a = b := by
  intro ps
  induction ps with
  | nil =>
    intro a b _ ha _ _
    cases ha
  | cons x xs ih =>
    intro a b hnd ha hb he
    rcases NodupIds_cons hnd with ⟨hxnot, hnd2⟩
    rcases List.mem_cons.mp ha with rfl | ha2
    · rcases List.mem_cons.mp hb with rfl | hb2
      · rfl
      · exfalso
        apply hxnot
        rw [he]
        exact List.mem_map.mpr ⟨b, hb2, rfl⟩
    · rcases List.mem_cons.mp hb with rfl | hb2
      · exfalso
        apply hxnot
        rw [← he]
        exact List.mem_map.mpr ⟨a, ha2, rfl⟩
      · exact ih hnd2 ha2 hb2 he

theorem mem_mapSet_cases {x q : Popup} {l : List Popup} (h : x ∈ mapSet l q) :
    x = q ∨ x ∈ l := by
  unfold mapSet at h
  split at h
  · rcases List.mem_map.mp h with ⟨y, hy, hye⟩
    by_cases hc : (y.id == q.id) = true
    · rw [if_pos hc] at hye
      exact Or.inl hye.symm
    · rw [if_neg hc] at hye
      exact Or.inr (hye ▸ hy)
  · rcases List.mem_append.mp h with h2 | h2
    · exact Or.inr h2
    · simp at h2
      exact Or.inl h2

theorem uuidOf_ne_empty (n : Nat) : uuidOf n ≠ "" := by
  unfold uuidOf
  intro h
  have hl := congrArg String.length h
  rw [String.length_append] at hl
  have h5 : ("uuid-" : String).length = 5 := rfl
  have h0 : ("" : String).length = 0 := rfl
  omega

theorem filter_length_two {l : List Popup} {q : Popup → Bool} {a b : Popup}
    (ha : a ∈ l) (hb : b ∈ l) (hne : a ≠ b) (hqa : q a = true) (hqb : q b = true) :
    2 ≤ (l.filter q).length := by
  induction l with
  | nil => cases ha
  | cons x xs ih =>
    rcases List.mem_cons.mp ha with rfl | ha2
    · have hb2 : b ∈ xs := by
        rcases List.mem_cons.mp hb with h | h
        · exact absurd h.symm hne
        · exact h
      have h1 : 0 < (xs.filter q).length :=
        List.length_pos_of_mem (List.mem_filter.mpr ⟨hb2, hqb⟩)
      simp only [List.filter_cons, hqa, if_pos, List.length_cons]
      omega
    · rcases List.mem_cons.mp hb with rfl | hb2
      · have h1 : 0 < (xs.filter q).length :=
          List.length_pos_of_mem (List.mem_filter.mpr ⟨ha2, hqa⟩)
        simp only [List.filter_cons, hqb, if_pos, List.length_cons]
        omega
      · have h2 := ih ha2 hb2
        by_cases hqx : q x = true
        · simp only [List.filter_cons, hqx, if_pos, List.length_cons]
          omega
        · have hqx2 : q x = false := by simpa using hqx
          simp only [List.filter_cons, hqx2, Bool.false_eq_true, if_false]
          omega

theorem filter_length_mapIf_le (l : List Popup) (c q : Popup → Bool) (r : Popup)
    (h : q r = false) :
    ((l.map (fun x => if c x then r else x)).filter q).length ≤ (l.filter q).length := by
  induction l with
  | nil => simp
  | cons x xs ih =>
    by_cases hc : c x = true <;> by_cases hqx : q x = true <;>
      simp only [List.map_cons, hc, hqx, if_pos, if_neg, List.filter_cons, h,
        Bool.false_eq_true, if_false, List.length_cons, Bool.not_eq_true] <;>
      omega

theorem filter_length_mapIf_congr (l : List Popup) (c q : Popup → Bool) (r : Popup)
    (hcg : ∀ x ∈ l, c x = true → q r = q x) :
    ((l.map (fun x => if c x then r else x)).filter q).length = (l.filter q).length := by
  induction l with
  | nil => simp
  | cons x xs ih =>
    have ih2 := ih (fun y hy hcy => hcg y (List.mem_cons_of_mem x hy) hcy)
    by_cases hc : c x = true
    · have hqe : q r = q x := hcg x (List.mem_cons_self x xs) hc
      simp only [List.map_cons, hc, if_pos, List.filter_cons, hqe]
      by_cases hqx : q x = true
      · simp only [hqx, if_pos, List.length_cons, ih2]
      · have hqx2 : q x = false := by simpa using hqx
        simp only [hqx2, Bool.false_eq_true, if_false, ih2]
    · have hc2 : c x = false := by simpa using hc
      simp only [List.map_cons, hc2, Bool.false_eq_true, if_false, List.filter_cons]
      by_cases hqx : q x = true
      · simp only [hqx, if_pos, List.length_cons, ih2]
      · have hqx2 : q x = false := by simpa using hqx
        simp only [hqx2, Bool.false_eq_true, if_false, ih2]

theorem filter_length_mapIf_zero (l : List Popup) (c q : Popup → Bool) (r : Popup)
    (h : q r = false) (hall : ∀ x ∈ l, q x = true → c x = true) :
    ((l.map (fun x => if c x then r else x)).filter q).length = 0 := by
  rw [List.length_eq_zero, List.filter_eq_nil_iff]
  intro x hx
  rcases List.mem_map.mp hx with ⟨y, hy, rfl⟩
  by_cases hcy : c y = true
  · simp [hcy, h]
  · have hqy : q y = false := by
      rcases hq : q y
      · rfl
      · exact absurd (hall y hy hq) hcy
    have hcy2 : c y = false := by simpa using hcy
    simp [hcy2, hqy]

theorem filter_length_del_zero (l : List Popup) (q : Popup → Bool) (w : String)
    (hall : ∀ x ∈ l, q x = true → x.id = w) :
    ((mapDelete l w).filter q).length = 0 := by
  rw [List.length_eq_zero, List.filter_eq_nil_iff]
  intro x hx hqx
  rcases List.mem_filter.mp hx with ⟨hxl, hxw⟩
  have := hall x hxl hqx
  simp [this] at hxw

theorem filter_length_sub_le (l : List Popup) (keep q : Popup → Bool) :
    ((l.filter keep).filter q).length ≤ (l.filter q).length :=
  List.Sublist.length_le (List.Sublist.filter q (List.filter_sublist l))

theorem filter_length_replace_le_one (q : Popup → Bool) (np : Popup) :
    ∀ (l : List Popup), NodupIds l → (l.filter q).length = 0 →
      ((l.map (fun x => if x.id == np.id then np else x)).filter q).length ≤ 1 := by
  intro l
  induction l with
  | nil =>
    intro _ _
    simp
  | cons x xs ih =>
    intro hnd hzero
    have hx0 : q x = false := by
      rcases hq : q x
      · rfl
      · exfalso
        simp [List.filter_cons, hq] at hzero
    have hzero2 : (xs.filter q).length = 0 := by
      simpa [List.filter_cons, hx0] using hzero
    rcases NodupIds_cons hnd with ⟨hxnot, hnd2⟩
    by_cases hid : (x.id == np.id) = true
    · have hxid : x.id = np.id := beq_iff_eq.mp hid
      have hmapid : xs.map (fun y => if y.id == np.id then np else y) = xs := by
        have hcg : ∀ y ∈ xs, (if y.id == np.id then np else y) = y := by
          intro y hy
          have hyne : (y.id == np.id) = false := by
            apply beq_eq_false_iff_ne.mpr
            intro he
            apply hxnot
            have hmem : y.id ∈ idsOf xs := List.mem_map.mpr ⟨y, hy, rfl⟩
            rw [hxid, ← he]
            exact hmem
          simp [hyne]
        rw [List.map_congr_left hcg, List.map_id']
      simp only [List.map_cons, hid, if_pos, hmapid, List.filter_cons]
      by_cases hqnp : q np = true
      · simp only [hqnp, if_pos, List.length_cons, hzero2]
        omega
      · have hq2 : q np = false := by simpa using hqnp
        simp only [hq2, Bool.false_eq_true, if_false, hzero2]
        omega
    · have hid2 : (x.id == np.id) = false := by simpa using hid
      have h2 := ih hnd2 hzero2
      simp only [List.map_cons, hid2, Bool.false_eq_true, if_false, List.filter_cons, hx0]
      exact h2

theorem removeImm_popups_cases (s : St) (id : String) :
    (removePopupImmediately s id).st.popups = mapDelete s.popups id
    ∨ (removePopupImmediately s id).st.popups = s.popups := by
  simp only [removePopupImmediately]
  split
  · exact Or.inl rfl
  · exact Or.inr rfl

theorem removePopup_popups_active (s : St) (id : String) (fu : Bool) (p : Popup)
    (hid : id ≠ "") (hp : mapGet s.popups id = some p) (hcl : p._closing = false) :
    (removePopup s id fu).st.popups =
      (if p.animation.isNone || !p.visible then mapDelete s.popups id
       else mapSet s.popups (_beforeClosing p).1) := by
  have hid2 : (id == "") = false := beq_eq_false_iff_ne.mpr hid
  by_cases hcond : (p.animation.isNone || !p.visible) = true
  · simp [removePopup, hid2, hp, hcl, hcond, removePopupImmediately, mapHas_of_get hp]
  · have hc2 : (p.animation.isNone || !p.visible) = false := Bool.eq_false_iff.mpr hcond
    simp [removePopup, hid2, hp, hcl, hc2]

theorem removePopup_popups_cases (s : St) (id : String) (fu : Bool) :
    (removePopup s id fu).st.popups = s.popups
    ∨ (removePopup s id fu).st.popups = mapDelete s.popups id
    ∨ (∃ p, p ∈ s.popups ∧ p._closing = false ∧
        (removePopup s id fu).st.popups = mapSet s.popups (_beforeClosing p).1) := by
  by_cases hid : id = ""
  · subst hid
    left
    simp [removePopup]
  · rcases hp : mapGet s.popups id with _ | p
    · left
      have hid2 := beq_eq_false_iff_ne.mpr hid
      simp [removePopup, hid2, hp]
    · by_cases hcl : p._closing = true
      · left
        have hid2 := beq_eq_false_iff_ne.mpr hid
        simp [removePopup, hid2, hp, hcl]
      · have hcl2 : p._closing = false := by simpa using hcl
        rw [removePopup_popups_active s id fu p hid hp hcl2]
        by_cases hcond : (p.animation.isNone || !p.visible) = true
        · right
          left
          simp [hcond]
        · have hc2 : (p.animation.isNone || !p.visible) = false := Bool.eq_false_iff.mpr hcond
          right
          right
          exact ⟨p, (mapGet_mem hp).1, hcl2, by simp [hc2]⟩

theorem resetPopup_popups_cases (s : St) (id key : String) (v : JSVal) :
    (resetPopupProperty s id key v).st.popups = s.popups
    ∨ (∃ p, mapGet s.popups id = some p ∧ key ≠ "id" ∧ key.take 1 ≠ "_" ∧
        hasOwn key = true ∧
        (resetPopupProperty s id key v).st.popups = mapSet s.popups (setField p key v)) := by
  by_cases hg : (id == "" || key == "" || key == "id" || key.take 1 == "_") = true
  · left
    simp [resetPopupProperty, hg]
  · have hg2 : (id == "" || key == "" || key == "id" || key.take 1 == "_") = false := by
      simpa using hg
    simp only [Bool.or_eq_false_iff] at hg2
    rcases hp : mapGet s.popups id with _ | p
    · left
      simp [resetPopupProperty, hg, hp]
    · by_cases hho : hasOwn key = true
      · right
        refine ⟨p, rfl, beq_eq_false_iff_ne.mp hg2.1.2, beq_eq_false_iff_ne.mp hg2.2,
          hho, ?_⟩
        simp [resetPopupProperty, hg, hp, hho]
      · left
        have hho2 : hasOwn key = false := by simpa using hho
        simp [resetPopupProperty, hg, hp, hho2]

theorem removeAll_popups_cases (s : St) (f : Option (Popup → Bool)) :
    (removeAll s f).st.popups = s.popups
    ∨ (∃ g : Popup → Bool, (removeAll s f).st.popups = s.popups.filter (fun o => !(g o)))
    ∨ (removeAll s f).st.popups = [] := by
  rcases f with _ | g
  · by_cases hlen : s.popups.length = 0
    · left
      simp [removeAll, hlen]
    · right
      right
      simp [removeAll, hlen]
  · by_cases hlen : s.popups.length = 0
    · left
      simp [removeAll, hlen]
    · right
      left
      refine ⟨g, ?_⟩
      simp [removeAll, hlen]

theorem GoodMap_nil : GoodMap [] := by
  refine ⟨?_, ?_, ?_⟩ <;> simp [NodupIds, idsOf, NonemptyIds, ZUnique]

theorem GoodMap_filter (ps : List Popup) (f : Popup → Bool) (h : GoodMap ps) :
    GoodMap (ps.filter f) := by
  obtain ⟨h1, h2, h3⟩ := h
  refine ⟨?_, ?_, ?_⟩
  · have hsub : List.Sublist (idsOf (ps.filter f)) (idsOf ps) :=
      List.Sublist.map _ (List.filter_sublist ps)
    exact List.Nodup.sublist hsub h1
  · intro p hp
    exact h2 p (List.mem_filter.mp hp).1
  · intro z
    exact le_trans (filter_length_sub_le ps f (predZ z)) (h3 z)

theorem GoodMap_delete (ps : List Popup) (id : String) (h : GoodMap ps) :
    GoodMap (mapDelete ps id) := GoodMap_filter ps _ h

theorem GoodMap_perm {ps ps2 : List Popup} (hp : ps.Perm ps2) (h : GoodMap ps) :
    GoodMap ps2 := by
  obtain ⟨h1, h2, h3⟩ := h
  refine ⟨NodupIds_perm hp h1, ?_, ?_⟩
  · intro p hpm
    exact h2 p (hp.symm.subset hpm)
  · intro z
    rw [← (hp.filter (predZ z)).length_eq]
    exact h3 z

theorem GoodMap_sort (ps : List Popup) (h : GoodMap ps) : GoodMap (_sortPopups ps) :=
  GoodMap_perm (sortPopups_perm ps).symm h

theorem GoodMap_mapSet_closing (ps : List Popup) (p : Popup) (h : GoodMap ps)
    (hmem : p ∈ ps) : GoodMap (mapSet ps (_beforeClosing p).1) := by
  obtain ⟨h1, h2, h3⟩ := h
  have hany : ps.any (fun x => x.id == (_beforeClosing p).1.id) = true :=
    List.any_eq_true.mpr ⟨p, hmem, by rw [beforeClosing_id]; simp⟩
  have hform : mapSet ps (_beforeClosing p).1 =
      ps.map (fun x =>
        if x.id == (_beforeClosing p).1.id then (_beforeClosing p).1 else x) := by
    unfold mapSet
    rw [if_pos hany]
  refine ⟨NodupIds_mapSet _ h1, ?_, ?_⟩
  · intro x hx
    rcases mem_mapSet_cases hx with rfl | hx2
    · rw [beforeClosing_id]
      exact h2 p hmem
    · exact h2 x hx2
  · intro z
    rw [hform]
    refine le_trans (filter_length_mapIf_le ps _ (predZ z) _ ?_) (h3 z)
    simp [predZ, beforeClosing_closing]

theorem reset_preserve (s : St) (id key : String) (v : JSVal) (hkey : key ≠ "zIndex")
    (h : GoodMap s.popups) : GoodMap (resetPopupProperty s id key v).st.popups := by
  rcases resetPopup_popups_cases s id key v with h1 | ⟨p, hp, hkid, hund, hho, h1⟩
  · rw [h1]
    exact h
  · rw [h1]
    obtain ⟨hn1, hn2, hn3⟩ := h
    have hpmem := (mapGet_mem hp).1
    rcases hok : keyOf key with _ | pk
    · exfalso
      rw [hasOwn, hok] at hho
      simp at hho
    · have hkn := keyOf_eq_some hok
      have hpk_id : pk ≠ PKey.kid := by
        intro he
        rw [he] at hkn
        exact hkid hkn
      have hpk_z : pk ≠ PKey.kzIndex := by
        intro he
        rw [he] at hkn
        exact hkey hkn
      have hpk_cl : pk ≠ PKey.kclosing := by
        intro he
        rw [he] at hkn
        apply hund
        rw [hkn]
        rfl
      have hsf : setField p key v = setF p pk v := by simp [setField, hok]
      have hid_eq : (setField p key v).id = p.id := by
        rw [hsf]
        exact setF_id p pk v hpk_id
      have hz_eq : (setField p key v).zIndex = p.zIndex := by
        rw [hsf]
        exact setF_zIndex p pk v hpk_z
      have hcl_eq : (setField p key v)._closing = p._closing := by
        rw [hsf]
        exact setF_closing p pk v hpk_cl
      have hany : s.popups.any (fun x => x.id == (setField p key v).id) = true :=
        List.any_eq_true.mpr ⟨p, hpmem, by rw [hid_eq]; simp⟩
      have hform : mapSet s.popups (setField p key v) =
          s.popups.map (fun x =>
            if x.id == (setField p key v).id then setField p key v else x) := by
        unfold mapSet
        rw [if_pos hany]
      refine ⟨NodupIds_mapSet _ hn1, ?_, ?_⟩
      · intro x hx
        rcases mem_mapSet_cases hx with rfl | hx2
        · rw [hid_eq]
          exact hn2 p hpmem
        · exact hn2 x hx2
      · intro z
        rw [hform, filter_length_mapIf_congr]
        · exact hn3 z
        · intro x hx hcx
          have hxid : x.id = (setField p key v).id := beq_iff_eq.mp hcx
          rw [hid_eq] at hxid
          have hxp : x = p := eq_of_mem_same_id hn1 hx hpmem hxid
          rw [hxp]
          simp [predZ, hz_eq, hcl_eq]

theorem removeImm_preserve (s : St) (id : String) (h : GoodMap s.popups) :
    GoodMap (removePopupImmediately s id).st.popups := by
  rcases removeImm_popups_cases s id with h1 | h1 <;> rw [h1]
  · exact GoodMap_delete s.popups id h
  · exact h

theorem removePopup_preserve (s : St) (id : String) (fu : Bool) (h : GoodMap s.popups) :
    GoodMap (removePopup s id fu).st.popups := by
  rcases removePopup_popups_cases s id fu with h1 | h1 | ⟨p, hmem, hcl, h1⟩ <;> rw [h1]
  · exact h
  · exact GoodMap_delete s.popups id h
  · exact GoodMap_mapSet_closing s.popups p h hmem

theorem removeAll_preserve (s : St) (f : Option (Popup → Bool)) (h : GoodMap s.popups) :
    GoodMap (removeAll s f).st.popups := by
  rcases removeAll_popups_cases s f with h1 | ⟨g, h1⟩ | h1 <;> rw [h1]
  · exact h
  · exact GoodMap_filter s.popups _ h
  · exact GoodMap_nil

theorem GoodMap_insert_new (ps : List Popup) (np : Popup) (h : GoodMap ps)
    (hz0 : (ps.filter (predZ np.zIndex)).length = 0)
    (hid : np.id ≠ "") (hcl : np._closing = false) :
    GoodMap (mapSet ps np) := by
  obtain ⟨h1, h2, h3⟩ := h
  refine ⟨NodupIds_mapSet _ h1, ?_, ?_⟩
  · intro x hx
    rcases mem_mapSet_cases hx with rfl | hx2
    · exact hid
    · exact h2 x hx2
  · intro z
    by_cases hzz : (np.zIndex == z) = true
    · have hze : np.zIndex = z := beq_iff_eq.mp hzz
      have hz0b : (ps.filter (predZ z)).length = 0 := by
        rw [← hze]
        exact hz0
      unfold mapSet
      split
      · exact filter_length_replace_le_one (predZ z) np ps h1 hz0b
      · rw [List.filter_append, List.length_append]
        have h4 : ([np].filter (predZ z)).length ≤ 1 := by
          rcases hq : predZ z np <;> simp [List.filter_cons, hq]
        omega
    · have hzz2 : (np.zIndex == z) = false := by simpa using hzz
      have hqnp : predZ z np = false := by simp [predZ, hzz2]
      unfold mapSet
      split
      · exact le_trans (filter_length_mapIf_le ps _ (predZ z) np hqnp) (h3 z)
      · rw [List.filter_append, List.length_append]
        have h4 : ([np].filter (predZ z)).length = 0 := by
          simp [List.filter_cons, hqnp]
        have h5 := h3 z
        omega

theorem addPopup_preserve (s : St) (e : Bool) (o : POption) (h : GoodMap s.popups) :
    GoodMap (addPopup s e o).st.popups := by
  cases e
  · have heq : (addPopup s false o).st.popups = s.popups := rfl
    rw [heq]
    exact h
  · rcases hf : List.find? (fun p =>
        p.zIndex == (createPopup o (uuidOf s.uuidSeed) s.orderId).zIndex
          && !p._closing) s.popups with _ | c
    · have heq : (addPopup s true o).st.popups =
          _sortPopups (mapSet s.popups (createPopup o (uuidOf s.uuidSeed) s.orderId)) := by
        simp only [addPopup]
        simp only [hf]
        rfl
      rw [heq]
      apply GoodMap_sort
      refine GoodMap_insert_new s.popups _ h ?_ (uuidOf_ne_empty _) rfl
      rw [List.length_eq_zero, List.filter_eq_nil_iff]
      intro x hx hqx
      have hfn := List.find?_eq_none.mp hf x hx
      apply hfn
      simp only [predZ, Bool.and_eq_true] at hqx
      simp [hqx.1, hqx.2]
    · have hc_mem : c ∈ s.popups := List.mem_of_find?_eq_some hf
      have hpred := List.find?_some hf
      have hcz : c.zIndex = (createPopup o (uuidOf s.uuidSeed) s.orderId).zIndex
          ∧ c._closing = false := by
        simpa using hpred
      have hcid : c.id ≠ "" := h.2.1 c hc_mem
      have hget : mapGet s.popups c.id = some c := mapGet_of_mem h.1 hc_mem
      have hqc : predZ (createPopup o (uuidOf s.uuidSeed) s.orderId).zIndex c = true := by
        simp [predZ, hcz.1, hcz.2]
      have huniq : ∀ x ∈ s.popups,
          predZ (createPopup o (uuidOf s.uuidSeed) s.orderId).zIndex x = true → x = c := by
        intro x hx hqx
        by_contra hne
        have h2cnt := filter_length_two hx hc_mem hne hqx hqc
        have h3 := h.2.2 (createPopup o (uuidOf s.uuidSeed) s.orderId).zIndex
        omega
      have heq : (addPopup s true o).st.popups =
          _sortPopups (mapSet
            (removePopup { s with orderId := s.orderId + 1, uuidSeed := s.uuidSeed + 1 }
              c.id false).st.popups
            { createPopup o (uuidOf s.uuidSeed) s.orderId with
              delay := c.duration / 2, _maskDelay := c.duration / 2 }) := by
        simp only [addPopup]
        simp only [hf]
        rfl
      rw [heq]
      have hactive := removePopup_popups_active
        { s with orderId := s.orderId + 1, uuidSeed := s.uuidSeed + 1 }
        c.id false c hcid hget hcz.2
      have hGood1 : GoodMap
            (removePopup { s with orderId := s.orderId + 1, uuidSeed := s.uuidSeed + 1 }
              c.id false).st.popups
          ∧ ((removePopup { s with orderId := s.orderId + 1, uuidSeed := s.uuidSeed + 1 }
              c.id false).st.popups.filter
                (predZ (createPopup o (uuidOf s.uuidSeed) s.orderId).zIndex)).length = 0 := by
        rw [hactive]
        split
        · refine ⟨GoodMap_delete s.popups c.id h, ?_⟩
          apply filter_length_del_zero
          intro x hx hqx
          rw [huniq x hx hqx]
        · have hany : s.popups.any (fun x => x.id == (_beforeClosing c).1.id) = true :=
            List.any_eq_true.mpr ⟨c, hc_mem, by rw [beforeClosing_id]; simp⟩
          have hform : mapSet s.popups (_beforeClosing c).1 =
              s.popups.map (fun x =>
                if x.id == (_beforeClosing c).1.id then (_beforeClosing c).1 else x) := by
            unfold mapSet
            rw [if_pos hany]
          refine ⟨GoodMap_mapSet_closing s.popups c h hc_mem, ?_⟩
          rw [hform]
          apply filter_length_mapIf_zero
          · simp [predZ, beforeClosing_closing]
          · intro x hx hqx
            rw [huniq x hx hqx, beforeClosing_id]
            simp
      apply GoodMap_sort
      exact GoodMap_insert_new _ _ hGood1.1 hGood1.2 (uuidOf_ne_empty _) rfl

theorem reachNZ_good : ∀ s : St, ReachNZ s → GoodMap s.popups := by
  intro s h
  induction h with
  | init => exact GoodMap_nil
  | add s e o _ ih => exact addPopup_preserve s e o ih
  | remove s id fu _ ih => exact removePopup_preserve s id fu ih
  | removeImm s id _ ih => exact removeImm_preserve s id ih
  | reset s id key v hkey _ ih => exact reset_preserve s id key v hkey ih
  | removeAllStep s f _ ih => exact removeAll_preserve s f ih

/-- First add of the counterexample run: a popup at zIndex 1. -/
def cO1 : POption := { wOption with zIndex := 1 }

/-- Second add of the counterexample run: a popup at zIndex 2. -/
def cO2 : POption := { wOption with zIndex := 2 }

/-- The state after `addPopup(z=1)`, `addPopup(z=2)`,
`resetPopupProperty(firstId, 'zIndex', 2)`. -/
def caseSt : St :=
  (resetPopupProperty (addPopup (addPopup initSt true cO1).st true cO2).st
    (uuidOf 0) "zIndex" (JSVal.num 2)).st

/-- The first popup of the counterexample run. -/
def ceP1 : Popup := createPopup cO1 (uuidOf 0) 0

/-- The second popup of the counterexample run. -/
def ceP2 : Popup := createPopup cO2 (uuidOf 1) 1

/-- The first popup after its `zIndex` is reset to 2. -/
def ceP1b : Popup := { ceP1 with zIndex := 2 }

theorem ce_add1 : (addPopup initSt true cO1).st =
    { popups := [ceP1], orderId := 1, uuidSeed := 1 } := rfl

theorem ce_cmp : zIndexCmp ceP1 ceP2 ≤ 0 := by
  show (1 : ℚ) - 2 ≤ 0
  norm_num

theorem ce_add2 : (addPopup { popups := [ceP1], orderId := 1, uuidSeed := 1 } true cO2).st =
    { popups := [ceP1, ceP2], orderId := 2, uuidSeed := 2 } := by
  have hf2 : List.find? (fun p =>
      p.zIndex == (createPopup cO2 (uuidOf 1) 1).zIndex && !p._closing) [ceP1] = none := by
    rfl
  simp only [addPopup]
  simp only [hf2]
  have hms : mapSet [ceP1] (createPopup cO2 (uuidOf 1) 1) = [ceP1, ceP2] := rfl
  rw [hms]
  have hsrt : _sortPopups [ceP1, ceP2] = [ceP1, ceP2] := by
    simp only [_sortPopups]
    rw [if_pos (by decide : ([ceP1, ceP2] : List Popup).length > 1)]
    simp only [jsSort, List.foldl, jsInsert]
    rw [if_pos ce_cmp]
  rw [hsrt]
  rfl

theorem ce_reset :
    (resetPopupProperty { popups := [ceP1, ceP2], orderId := 2, uuidSeed := 2 }
      (uuidOf 0) "zIndex" (JSVal.num 2)).st =
    { popups := [ceP1b, ceP2], orderId := 2, uuidSeed := 2 } := rfl

/-- C7 counterexample: the claim quantifies over sequences that include
`resetPopupProperty`, but resetting a popup's `zIndex` onto an occupied value
creates two non-closing records with the same `zIndex` — after adding popups
at zIndexes 1 and 2 and resetting the first popup's `zIndex` to 2, a reachable
state carries two non-closing records at zIndex 2. -/
theorem zIndex_unique_counterexample : ¬ (∀ s : St, Reach s → ZUnique s.popups) := by
  intro h
  have hr : Reach caseSt :=
    Reach.reset _ (uuidOf 0) "zIndex" (JSVal.num 2)
      (Reach.add _ true cO2 (Reach.add _ true cO1 Reach.init))
  have h2 := h caseSt hr 2
  have hcs : caseSt = { popups := [ceP1b, ceP2], orderId := 2, uuidSeed := 2 } := by
    unfold caseSt
    rw [ce_add1, ce_add2, ce_reset]
  rw [hcs] at h2
  have h3 : (([ceP1b, ceP2] : List Popup).filter (predZ 2)).length = 2 := by decide
  simp only [hcs] at h2 ⊢
  omega

/-- C7 amended.  Under every sequence of `addPopup`, `removePopup`,
`removePopupImmediately`, `removeAll` and `resetPopupProperty` calls in which
`resetPopupProperty` is never invoked with key `zIndex`, every reachable state
has at most one non-closing record per `zIndex` value. -/
theorem zIndex_unique_amended (s : St) (h : ReachNZ s) : ZUnique s.popups :=
  (reachNZ_good s h).2.2

/-- Witness for the amended C7: after one add, at most one non-closing record
sits at zIndex 1. -/
theorem zIndex_unique_amended_witness :
    (((addPopup initSt true cO1).st.popups.filter (predZ 1)).length ≤ 1) :=
  zIndex_unique_amended _ (ReachNZ.add _ true cO1 ReachNZ.init) 1

end PopupStub
